import Mathlib

/-!
Rundeck job resource: configuration ↔ job definition mapping

A shallow embedding of `rundeck/resource_job.go`: the decoder
`jobFromResourceData` (configuration → `JobDetail`) and the encoder
`jobToResourceData` (`JobDetail` → configuration), followed by theorems about
their round trip, their validation errors and the encoder's frame behaviour.

Go strings are Lean `String`s, Go `int` is `Int` (the value is only copied),
a Go pointer that may be `nil` is an `Option`, and a function returning
`(*T, error)` returns `Except String T`, the string being the error message.
-/

namespace Rundeck

/-! ## Go library functions used by the mapper -/

/-- Splitting of a character sequence at every single space: the behaviour of
Go `strings.Split(s, " ")` on the characters of `s`. A sequence with `n`
spaces gives `n + 1` tokens; the empty sequence gives one empty token. -/
def splitChars : List Char → List (List Char)
  | [] => [[]]
  | c :: cs =>
    if c = ' ' then [] :: splitChars cs
    else
      match splitChars cs with
      | [] => [[c]]
      | t :: ts => (c :: t) :: ts

/-- Joining of character sequences with a single space between neighbours:
the behaviour of Go `strings.Join(xs, " ")`. -/
def joinChars : List (List Char) → List Char
  | [] => []
  | [t] => t
  | t :: u :: ts => t ++ ' ' :: joinChars (u :: ts)

/-- Go `strings.Split(s, " ")`. -/
def splitSpace (s : String) : List String :=
  (splitChars s.data).map String.mk

/-- Go `strings.Join(xs, " ")`. -/
def joinSpace (xs : List String) : String :=
  String.mk (joinChars (xs.map String.data))

/-! ## Configuration tree (`schema.ResourceData`)

Values that the mapper reads from and writes to nested blocks are Go
`interface{}` values. Two layers are enough for the job schema: the values of
a leaf block (an `option` block, a `job` reference, a plugin block), and the
values of a `command` block, which may hold lists of leaf blocks. -/

/-- A value stored in a leaf block: string, bool, list of strings
(`value_choices`) or string-keyed map of strings (plugin `config`). -/
inductive Prim where
  | str (s : String)
  | bool (b : Bool)
  | strList (xs : List String)
  | strMap (kvs : List (String × String))
  deriving DecidableEq, Repr

/-- A Go `map[string]interface{}` of a leaf block, as an association list. -/
abbrev FlatMap := List (String × Prim)

/-- A value stored in a `command` block: a leaf value or a list of leaf
blocks (`job`, `step_plugin`, `node_step_plugin`). -/
inductive Value where
  | prim (p : Prim)
  | blocks (bs : List FlatMap)
  deriving DecidableEq, Repr

/-- A Go `map[string]interface{}` of a `command` block. -/
abbrev BlockMap := List (String × Value)

/-- The declared configuration and state of one job resource: the resource
ID, the top-level scalar fields of the schema (`none` is an absent field) and
the `option` and `command` block lists. -/
structure ResourceData where
  id : String
  name : Option String
  group_name : Option String
  project_name : Option String
  description : Option String
  log_level : Option String
  allow_concurrent_executions : Option Bool
  max_thread_count : Option Int
  continue_on_error : Option Bool
  rank_order : Option String
  rank_attribute : Option String
  preserve_options_order : Option Bool
  command_ordering_strategy : Option String
  node_filter_query : Option String
  node_filter_exclude_precedence : Option Bool
  schedule : Option String
  option : List FlatMap
  command : List BlockMap
  deriving DecidableEq, Repr

/-- Result of `d.Get(key).(string)`: the stored string, the zero value `""`
for an absent field. -/
def getString (v : Option String) : String := v.getD ""

/-- Result of `d.Get(key).(bool)`: the stored flag, `false` when absent. -/
def getBool (v : Option Bool) : Bool := v.getD false

/-- Result of `d.Get(key).(int)`: the stored number, `0` when absent. -/
def getInt (v : Option Int) : Int := v.getD 0

/-- Reading `m[key].(string)` in a leaf block handed out by `d.Get`: such a
block carries every key of its schema, an undeclared one at its zero value. -/
def strOf (m : FlatMap) (key : String) : String :=
  match m.lookup key with
  | some (.str s) => s
  | _ => ""

/-- Reading `m[key].(bool)` in a leaf block. -/
def boolOf (m : FlatMap) (key : String) : Bool :=
  match m.lookup key with
  | some (.bool b) => b
  | _ => false

/-- Reading `m[key].([]interface{})` of strings in a leaf block. -/
def strListOf (m : FlatMap) (key : String) : List String :=
  match m.lookup key with
  | some (.strList xs) => xs
  | _ => []

/-- Reading `m[key].(map[string]interface{})` of strings in a leaf block. -/
def strMapOf (m : FlatMap) (key : String) : List (String × String) :=
  match m.lookup key with
  | some (.strMap kvs) => kvs
  | _ => []

/-- Reading `commandMap[key].(string)` in a `command` block. -/
def cmdStrOf (m : BlockMap) (key : String) : String :=
  match m.lookup key with
  | some (.prim (.str s)) => s
  | _ => ""

/-- Reading `commandMap[key].([]interface{})` in a `command` block: the list
of nested blocks, empty when none is declared. -/
def blocksOf (m : BlockMap) (key : String) : List FlatMap :=
  match m.lookup key with
  | some (.blocks bs) => bs
  | _ => []

/-- Assignment `config[k] = v` on a Go `map[string]string`: the entry of `k`
is replaced when present, added otherwise. -/
def mapSet : List (String × String) → String → String → List (String × String)
  | [], k, v => [(k, v)]
  | (k', v') :: rest, k, v =>
    if k' = k then (k, v) :: rest else (k', v') :: mapSet rest k v

/-! ## Job definition (`JobDetail` and its parts) -/

/-- Modelled from the spec: the type `JobDispatch` is declared outside
`resource_job.go`; its fields are those the mapper reads and writes (max
parallelism, continue-on-error flag, node ranking attribute and order). -/
structure JobDispatch where
  MaxThreadCount : Int
  ContinueOnError : Bool
  RankAttribute : String
  RankOrder : String
  deriving DecidableEq, Repr

/-- Modelled from the spec: the type `JobCommandJobRef` is declared outside
`resource_job.go`; a reference to another job (name, group, per-node flag,
argument string). -/
structure JobCommandJobRef where
  Name : String
  GroupName : String
  RunForEachNode : Bool
  Arguments : String
  deriving DecidableEq, Repr

/-- Modelled from the spec: the type `JobPlugin` is declared outside
`resource_job.go`; a plugin type with a string-keyed configuration. -/
structure JobPlugin where
  Type_ : String
  Config : List (String × String)
  deriving DecidableEq, Repr

/-- Modelled from the spec: the type `JobCommand` is declared outside
`resource_job.go`; one step of the command sequence, with the three optional
attachments as pointers. -/
structure JobCommand where
  Description : String
  ShellCommand : String
  Script : String
  ScriptFile : String
  ScriptFileArgs : String
  Job : Option JobCommandJobRef := none
  StepPlugin : Option JobPlugin := none
  NodeStepPlugin : Option JobPlugin := none
  deriving DecidableEq, Repr

/-- Modelled from the spec: the type `JobCommandSequence` is declared outside
`resource_job.go`; the ordered commands with the sequence-level ordering
strategy and continue-on-error flag. -/
structure JobCommandSequence where
  ContinueOnError : Bool
  OrderingStrategy : String
  Commands : List JobCommand
  deriving DecidableEq, Repr

/-- Modelled from the spec: the type `JobOption` is declared outside
`resource_job.go`; one input option of a job. `ValueChoices` is a Go slice
that the decoder initialises explicitly: `none` is the nil slice, `some []`
the empty one. -/
structure JobOption where
  Name : String
  DefaultValue : String
  ValueChoices : Option (List String)
  ValueChoicesURL : String
  RequirePredefinedChoice : Bool
  ValidationRegex : String
  Description : String
  IsRequired : Bool
  AllowsMultipleValues : Bool
  MultiValueDelimiter : String
  ObscureInput : Bool
  ValueIsExposedToScripts : Bool
  deriving DecidableEq, Repr

/-- Modelled from the spec: the type `JobOptions` is declared outside
`resource_job.go`; the ordered options and the preserve-order flag. -/
structure JobOptions where
  PreserveOrder : Bool
  Options : List JobOption
  deriving DecidableEq, Repr

/-- Modelled from the spec: the type `JobNodeFilter` is declared outside
`resource_job.go`; a query string and an exclude-precedence flag. -/
structure JobNodeFilter where
  ExcludePrecedence : Bool
  Query : String
  deriving DecidableEq, Repr

/-- Modelled from the spec: the type `JobScheduleTime` is declared outside
`resource_job.go`. -/
structure JobScheduleTime where
  Seconds : String
  Minute : String
  Hour : String
  deriving DecidableEq, Repr

/-- Modelled from the spec: the type `JobScheduleMonth` is declared outside
`resource_job.go`. -/
structure JobScheduleMonth where
  Day : String
  Month : String
  deriving DecidableEq, Repr

/-- Modelled from the spec: the type `JobScheduleWeekDay` is declared outside
`resource_job.go`. -/
structure JobScheduleWeekDay where
  Day : String
  deriving DecidableEq, Repr

/-- Modelled from the spec: the type `JobScheduleYear` is declared outside
`resource_job.go`. -/
structure JobScheduleYear where
  Year : String
  deriving DecidableEq, Repr

/-- Modelled from the spec: the type `JobSchedule` is declared outside
`resource_job.go`; the cron-like expression, its weekday part a pointer. -/
structure JobSchedule where
  Time : JobScheduleTime
  Month : JobScheduleMonth
  WeekDay : Option JobScheduleWeekDay
  Year : JobScheduleYear
  deriving DecidableEq, Repr

/-- Modelled from the spec: the type `JobDetail` is declared outside
`resource_job.go`; identity, descriptive metadata and the optional nested
parts, each a pointer. -/
structure JobDetail where
  ID : String
  Name : String
  GroupName : String
  ProjectName : String
  Description : String
  LogLevel : String
  AllowConcurrentExecutions : Bool
  Dispatch : Option JobDispatch := none
  CommandSequence : Option JobCommandSequence := none
  OptionsConfig : Option JobOptions := none
  NodeFilter : Option JobNodeFilter := none
  Schedule : Option JobSchedule := none
  deriving DecidableEq, Repr

/-! ## Decoder: configuration → job definition -/

/-- The loop `for k, v := range configI { config[k] = v.(string) }` on the
map `config`, empty at entry. -/
def copyConfig (configI : List (String × String)) : List (String × String) :=
  configI.foldl (fun config kv => mapSet config kv.1 kv.2) []

/-- Body of the loop over the declared `command` blocks in
`jobFromResourceData`: the command built from one block, or the error that
makes the whole decode return. -/
def commandFromMap (commandMap : BlockMap) : Except String JobCommand :=
  let command : JobCommand :=
    { Description := cmdStrOf commandMap "description"
      ShellCommand := cmdStrOf commandMap "shell_command"
      Script := cmdStrOf commandMap "inline_script"
      ScriptFile := cmdStrOf commandMap "script_file"
      ScriptFileArgs := cmdStrOf commandMap "script_file_args" }
  let jobRefsI := blocksOf commandMap "job"
  if jobRefsI.length > 1 then
    .error "rundeck command may have no more than one job"
  else
    let command : JobCommand :=
      match jobRefsI with
      | jobRefMap :: _ =>
        { command with
          Job := some
            { Name := strOf jobRefMap "name"
              GroupName := strOf jobRefMap "group_name"
              RunForEachNode := boolOf jobRefMap "run_for_each_node"
              Arguments := strOf jobRefMap "args" } }
      | [] => command
    let stepPluginsI := blocksOf commandMap "step_plugin"
    if stepPluginsI.length > 1 then
      .error "rundeck command may have no more than one step plugin"
    else
      let command : JobCommand :=
        match stepPluginsI with
        | stepPluginMap :: _ =>
          { command with
            StepPlugin := some
              { Type_ := strOf stepPluginMap "type"
                Config := copyConfig (strMapOf stepPluginMap "config") } }
        | [] => command
      let stepPluginsI := blocksOf commandMap "node_step_plugin"
      if stepPluginsI.length > 1 then
        .error "rundeck command may have no more than one node step plugin"
      else
        let command : JobCommand :=
          match stepPluginsI with
          | stepPluginMap :: _ =>
            { command with
              NodeStepPlugin := some
                { Type_ := strOf stepPluginMap "type"
                  Config := copyConfig (strMapOf stepPluginMap "config") } }
          | [] => command
        .ok command

/-- The loop `for _, commandI := range commandConfigs` of
`jobFromResourceData`, `commands` being `sequence.Commands` so far: every
command is appended in turn, and the first error ends the loop. -/
def commandsFromConfigs :
    List BlockMap → List JobCommand → Except String (List JobCommand)
  | [], commands => .ok commands
  | commandI :: rest, commands =>
    match commandFromMap commandI with
    | .error err => .error err
    | .ok command => commandsFromConfigs rest (commands ++ [command])

/-- Body of the loop over the declared `option` blocks in
`jobFromResourceData`: the scalars are copied, the value choices start as the
empty (non-nil) slice and receive the declared choices one by one with
`append`. -/
def optionFromMap (optionMap : FlatMap) : JobOption :=
  let option : JobOption :=
    { Name := strOf optionMap "name"
      DefaultValue := strOf optionMap "default_value"
      ValueChoices := some []
      ValueChoicesURL := strOf optionMap "value_choices_url"
      RequirePredefinedChoice := boolOf optionMap "require_predefined_choice"
      ValidationRegex := strOf optionMap "validation_regex"
      Description := strOf optionMap "description"
      IsRequired := boolOf optionMap "required"
      AllowsMultipleValues := boolOf optionMap "allow_multiple_values"
      MultiValueDelimiter := strOf optionMap "multi_value_delimiter"
      ObscureInput := boolOf optionMap "obscure_input"
      ValueIsExposedToScripts := boolOf optionMap "exposed_to_scripts" }
  { option with
    ValueChoices :=
      (strListOf optionMap "value_choices").foldl
        (fun choices iv => some (choices.getD [] ++ [iv])) option.ValueChoices }

/-- The error of `jobFromResourceData` for a schedule that does not have
seven tokens. -/
def scheduleFormatError : String :=
  "Rundeck schedule must be formated like a cron expression, as defined here: http://www.quartz-scheduler.org/documentation/quartz-2.2.x/tutorials/tutorial-lesson-06.html"

/-- The decoder `jobFromResourceData`: builds the job definition from the
declared configuration, or returns a validation error (and no job). The
indices `schedule[0]` to `schedule[6]` are read after the length check, so
the fallback of `getD` is never taken. -/
def jobFromResourceData (d : ResourceData) : Except String JobDetail :=
  let job : JobDetail :=
    { ID := d.id
      Name := getString d.name
      GroupName := getString d.group_name
      ProjectName := getString d.project_name
      Description := getString d.description
      LogLevel := getString d.log_level
      AllowConcurrentExecutions := getBool d.allow_concurrent_executions
      Dispatch := some
        { MaxThreadCount := getInt d.max_thread_count
          ContinueOnError := getBool d.continue_on_error
          RankAttribute := getString d.rank_attribute
          RankOrder := getString d.rank_order } }
  let sequence : JobCommandSequence :=
    { ContinueOnError := getBool d.continue_on_error
      OrderingStrategy := getString d.command_ordering_strategy
      Commands := [] }
  let commandConfigs := d.command
  match commandsFromConfigs commandConfigs sequence.Commands with
  | .error err => .error err
  | .ok commands =>
    let sequence : JobCommandSequence := { sequence with Commands := commands }
    let job : JobDetail := { job with CommandSequence := some sequence }
    let optionConfigsI := d.option
    let job : JobDetail :=
      if optionConfigsI.length > 0 then
        let optionsConfig : JobOptions :=
          { PreserveOrder := getBool d.preserve_options_order
            Options := [] }
        let optionsConfig : JobOptions :=
          { optionsConfig with
            Options :=
              optionConfigsI.foldl
                (fun options optionI => options ++ [optionFromMap optionI])
                optionsConfig.Options }
        { job with OptionsConfig := some optionsConfig }
      else job
    let job : JobDetail :=
      if getString d.node_filter_query ≠ "" then
        { job with
          NodeFilter := some
            { ExcludePrecedence := getBool d.node_filter_exclude_precedence
              Query := getString d.node_filter_query }
          Dispatch := some
            { MaxThreadCount := getInt d.max_thread_count
              ContinueOnError := getBool d.continue_on_error
              RankAttribute := getString d.rank_attribute
              RankOrder := getString d.rank_order } }
      else job
    if getString d.schedule ≠ "" then
      let schedule := splitSpace (getString d.schedule)
      if schedule.length ≠ 7 then
        .error scheduleFormatError
      else
        .ok
          { job with
            Schedule := some
              { Time :=
                  { Seconds := schedule.getD 0 ""
                    Minute := schedule.getD 1 ""
                    Hour := schedule.getD 2 "" }
                Month :=
                  { Day := schedule.getD 3 ""
                    Month := schedule.getD 4 "" }
                WeekDay := some { Day := schedule.getD 5 "" }
                Year := { Year := schedule.getD 6 "" } } }
    else .ok job

/-! ## Encoder: job definition → configuration -/

/-- The map literal `optionConfigI` that `jobToResourceData` builds for one
option, with the keys as they are spelled in the source. A nil slice of value
choices is stored as a list without elements. -/
def optionToMap (option : JobOption) : FlatMap :=
  [ ("name", .str option.Name),
    ("default_value", .str option.DefaultValue),
    ("value_choices", .strList (option.ValueChoices.getD [])),
    ("value_choices_url", .str option.ValueChoicesURL),
    ("require_predefined_choice", .bool option.RequirePredefinedChoice),
    ("validation_regex", .str option.ValidationRegex),
    ("decription", .str option.Description),
    ("required", .bool option.IsRequired),
    ("allow_multiple_values", .bool option.AllowsMultipleValues),
    ("multi_value_delimiter", .str option.MultiValueDelimiter),
    ("obscure_input", .bool option.ObscureInput),
    ("exposed_to_scripts", .bool option.ValueIsExposedToScripts) ]

/-- The map `commandConfigI` that `jobToResourceData` builds for one command:
the five scalar keys, then the keys `job`, `step_plugin` and
`node_step_plugin`, each only when the command has that attachment. -/
def commandToMap (command : JobCommand) : BlockMap :=
  let commandConfigI : BlockMap :=
    [ ("description", .prim (.str command.Description)),
      ("shell_command", .prim (.str command.ShellCommand)),
      ("inline_script", .prim (.str command.Script)),
      ("script_file", .prim (.str command.ScriptFile)),
      ("script_file_args", .prim (.str command.ScriptFileArgs)) ]
  let commandConfigI : BlockMap :=
    match command.Job with
    | some job =>
      commandConfigI ++
        [ ("job", .blocks
            [ [ ("name", .str job.Name),
                ("group_name", .str job.GroupName),
                ("run_for_each_node", .bool job.RunForEachNode),
                ("args", .str job.Arguments) ] ]) ]
    | none => commandConfigI
  let commandConfigI : BlockMap :=
    match command.StepPlugin with
    | some stepPlugin =>
      commandConfigI ++
        [ ("step_plugin", .blocks
            [ [ ("type", .str stepPlugin.Type_),
                ("config", .strMap stepPlugin.Config) ] ]) ]
    | none => commandConfigI
  let commandConfigI : BlockMap :=
    match command.NodeStepPlugin with
    | some nodeStepPlugin =>
      commandConfigI ++
        [ ("node_step_plugin", .blocks
            [ [ ("type", .str nodeStepPlugin.Type_),
                ("config", .strMap nodeStepPlugin.Config) ] ]) ]
    | none => commandConfigI
  commandConfigI

/-- The keys of the `option` block schema in `resourceRundeckJob`. -/
def optionSchemaKeys : List String :=
  [ "name", "default_value", "value_choices", "value_choices_url",
    "require_predefined_choice", "validation_regex", "description", "required",
    "allow_multiple_values", "multi_value_delimiter", "obscure_input",
    "exposed_to_scripts" ]

/-- The keys of the `command` block schema in `resourceRundeckJob`. -/
def commandSchemaKeys : List String :=
  [ "description", "shell_command", "inline_script", "script_file", "script_file_args",
    "job", "step_plugin", "node_step_plugin" ]

/-- The keys of the `job` block schema inside a `command` block. -/
def jobRefSchemaKeys : List String :=
  [ "name", "group_name", "run_for_each_node", "args" ]

/-- The keys of the schema `resourceRundeckJobPluginResource`. -/
def pluginSchemaKeys : List String :=
  [ "type", "config" ]

/-- Whether every key of a block is a key of the schema of that block. -/
def keysWithin {α : Type} (schemaKeys : List String) (m : List (String × α)) : Bool :=
  m.all (fun kv => schemaKeys.contains kv.1)

/-- Whether every key of a `command` block, and of the blocks nested in it,
is a key of its schema. -/
def commandKeysWithin (m : BlockMap) : Bool :=
  keysWithin commandSchemaKeys m &&
    (blocksOf m "job").all (keysWithin jobRefSchemaKeys) &&
    (blocksOf m "step_plugin").all (keysWithin pluginSchemaKeys) &&
    (blocksOf m "node_step_plugin").all (keysWithin pluginSchemaKeys)

/-- The call `d.Set("option", optionConfigsI)` as `jobToResourceData` makes
it, the returned error being discarded: a list in which some entry has a key
outside the option schema is rejected as a whole and the option list of the
state stays as it was; otherwise the list is stored. -/
def setOptionList (d : ResourceData) (optionConfigsI : List FlatMap) : ResourceData :=
  if optionConfigsI.all (keysWithin optionSchemaKeys) then
    { d with option := optionConfigsI }
  else d

/-- The call `d.Set("command", commandConfigsI)` as `jobToResourceData` makes
it, the returned error being discarded: a list in which some block has a key
outside its schema is rejected as a whole and the command list of the state
stays as it was; otherwise the list is stored. -/
def setCommandList (d : ResourceData) (commandConfigsI : List BlockMap) : ResourceData :=
  if commandConfigsI.all commandKeysWithin then
    { d with command := commandConfigsI }
  else d

/-- The encoder `jobToResourceData`: writes the job definition into the
configuration `d` with `d.SetId` and `d.Set`, one update per call;
`d.Set(key, nil)` makes the field absent, and the two block lists are written
with `setOptionList` and `setCommandList`. The Go function discards the
results of `d.Set` and returns the error `nil` on every path, so the result
here is the configuration afterwards. -/
def jobToResourceData (job : JobDetail) (d : ResourceData) : ResourceData :=
  let d := { d with id := job.ID }
  let d := { d with name := some job.Name }
  let d := { d with group_name := some job.GroupName }
  let d :=
    if job.ProjectName ≠ "" then { d with project_name := some job.ProjectName }
    else d
  let d := { d with description := some job.Description }
  let d := { d with log_level := some job.LogLevel }
  let d := { d with allow_concurrent_executions := some job.AllowConcurrentExecutions }
  let d :=
    match job.Dispatch with
    | some dispatch =>
      { d with
        max_thread_count := some dispatch.MaxThreadCount
        continue_on_error := some dispatch.ContinueOnError
        rank_attribute := some dispatch.RankAttribute
        rank_order := some dispatch.RankOrder }
    | none =>
      { d with
        max_thread_count := some 1
        continue_on_error := none
        rank_attribute := none
        rank_order := some "ascending" }
  let d := { d with node_filter_query := none }
  let d := { d with node_filter_exclude_precedence := none }
  let d :=
    match job.NodeFilter with
    | some nodeFilter =>
      { d with
        node_filter_query := some nodeFilter.Query
        node_filter_exclude_precedence := some nodeFilter.ExcludePrecedence }
    | none => d
  let optionConfigsI : List FlatMap := []
  let d :=
    match job.OptionsConfig with
    | some optionsConfig =>
      { d with preserve_options_order := some optionsConfig.PreserveOrder }
    | none => d
  let optionConfigsI : List FlatMap :=
    match job.OptionsConfig with
    | some optionsConfig =>
      optionsConfig.Options.foldl
        (fun configs option => configs ++ [optionToMap option]) optionConfigsI
    | none => optionConfigsI
  let d := setOptionList d optionConfigsI
  let commandConfigsI : List BlockMap := []
  let d :=
    match job.CommandSequence with
    | some commandSequence =>
      { d with command_ordering_strategy := some commandSequence.OrderingStrategy }
    | none => d
  let commandConfigsI : List BlockMap :=
    match job.CommandSequence with
    | some commandSequence =>
      commandSequence.Commands.foldl
        (fun configs command => configs ++ [commandToMap command]) commandConfigsI
    | none => commandConfigsI
  let d := setCommandList d commandConfigsI
  match job.Schedule with
  | some jobSchedule =>
    let schedule : List String := []
    let schedule := schedule ++ [jobSchedule.Time.Seconds]
    let schedule := schedule ++ [jobSchedule.Time.Minute]
    let schedule := schedule ++ [jobSchedule.Time.Hour]
    let schedule := schedule ++ [jobSchedule.Month.Day]
    let schedule := schedule ++ [jobSchedule.Month.Month]
    let schedule :=
      match jobSchedule.WeekDay with
      | some weekDay => schedule ++ [weekDay.Day]
      | none => schedule ++ ["*"]
    let schedule := schedule ++ [jobSchedule.Year.Year]
    { d with schedule := some (joinSpace schedule) }
  | none => d

/-- The job that `jobFromResourceData` returns on its successful path, as one
record: `commands` is the command list built by the loop. A proof device,
related to the decoder by `jobFromResourceData_eq`. -/
def decodedJob (d : ResourceData) (commands : List JobCommand) : JobDetail :=
  { ID := d.id
    Name := getString d.name
    GroupName := getString d.group_name
    ProjectName := getString d.project_name
    Description := getString d.description
    LogLevel := getString d.log_level
    AllowConcurrentExecutions := getBool d.allow_concurrent_executions
    Dispatch := some
      { MaxThreadCount := getInt d.max_thread_count
        ContinueOnError := getBool d.continue_on_error
        RankAttribute := getString d.rank_attribute
        RankOrder := getString d.rank_order }
    CommandSequence := some
      { ContinueOnError := getBool d.continue_on_error
        OrderingStrategy := getString d.command_ordering_strategy
        Commands := commands }
    OptionsConfig :=
      if d.option = [] then none
      else some
        { PreserveOrder := getBool d.preserve_options_order
          Options := d.option.map optionFromMap }
    NodeFilter :=
      if getString d.node_filter_query = "" then none
      else some
        { ExcludePrecedence := getBool d.node_filter_exclude_precedence
          Query := getString d.node_filter_query }
    Schedule :=
      if getString d.schedule = "" then none
      else some
        { Time :=
            { Seconds := (splitSpace (getString d.schedule)).getD 0 ""
              Minute := (splitSpace (getString d.schedule)).getD 1 ""
              Hour := (splitSpace (getString d.schedule)).getD 2 "" }
          Month :=
            { Day := (splitSpace (getString d.schedule)).getD 3 ""
              Month := (splitSpace (getString d.schedule)).getD 4 "" }
          WeekDay := some { Day := (splitSpace (getString d.schedule)).getD 5 "" }
          Year := { Year := (splitSpace (getString d.schedule)).getD 6 "" } } }

/-- The configuration that `jobToResourceData` leaves behind, field by field:
for each field the value of the last `d.Set` that reaches it, or the prior
value when no `d.Set` does. The option list stays as it was when the job has
an option, because every map built by `optionToMap` has the key `decription`,
which is outside the option schema. A proof device, related to the encoder by
`jobToResourceData_eq`. -/
def encodedData (job : JobDetail) (d : ResourceData) : ResourceData :=
  { id := job.ID
    name := some job.Name
    group_name := some job.GroupName
    project_name := if job.ProjectName = "" then d.project_name else some job.ProjectName
    description := some job.Description
    log_level := some job.LogLevel
    allow_concurrent_executions := some job.AllowConcurrentExecutions
    max_thread_count :=
      match job.Dispatch with
      | some dispatch => some dispatch.MaxThreadCount
      | none => some 1
    continue_on_error :=
      match job.Dispatch with
      | some dispatch => some dispatch.ContinueOnError
      | none => none
    rank_order :=
      match job.Dispatch with
      | some dispatch => some dispatch.RankOrder
      | none => some "ascending"
    rank_attribute :=
      match job.Dispatch with
      | some dispatch => some dispatch.RankAttribute
      | none => none
    preserve_options_order :=
      match job.OptionsConfig with
      | some optionsConfig => some optionsConfig.PreserveOrder
      | none => d.preserve_options_order
    command_ordering_strategy :=
      match job.CommandSequence with
      | some commandSequence => some commandSequence.OrderingStrategy
      | none => d.command_ordering_strategy
    node_filter_query :=
      match job.NodeFilter with
      | some nodeFilter => some nodeFilter.Query
      | none => none
    node_filter_exclude_precedence :=
      match job.NodeFilter with
      | some nodeFilter => some nodeFilter.ExcludePrecedence
      | none => none
    schedule :=
      match job.Schedule with
      | some jobSchedule =>
        some (joinSpace
          [ jobSchedule.Time.Seconds, jobSchedule.Time.Minute, jobSchedule.Time.Hour,
            jobSchedule.Month.Day, jobSchedule.Month.Month,
            (match jobSchedule.WeekDay with
              | some weekDay => weekDay.Day
              | none => "*"),
            jobSchedule.Year.Year ])
      | none => d.schedule
    option :=
      match job.OptionsConfig with
      | some optionsConfig => if optionsConfig.Options = [] then [] else d.option
      | none => []
    command :=
      match job.CommandSequence with
      | some commandSequence => commandSequence.Commands.map commandToMap
      | none => [] }

/-! ## Sample configurations -/

/-- A configuration with every field absent and no blocks. -/
def emptyConfig : ResourceData :=
  { id := "", name := none, group_name := none, project_name := none,
    description := none, log_level := none, allow_concurrent_executions := none,
    max_thread_count := none, continue_on_error := none, rank_order := none,
    rank_attribute := none, preserve_options_order := none,
    command_ordering_strategy := none, node_filter_query := none,
    node_filter_exclude_precedence := none, schedule := none,
    option := [], command := [] }

/-- A configuration that sets `node_filter_exclude_precedence` and declares
no `node_filter_query`. -/
def filterFlagConfig : ResourceData :=
  { emptyConfig with node_filter_exclude_precedence := some true }

/-- A configuration whose schedule is explicitly the empty string. -/
def emptyScheduleConfig : ResourceData :=
  { emptyConfig with schedule := some "" }

/-- A configuration whose schedule has five tokens. -/
def shortScheduleConfig : ResourceData :=
  { emptyConfig with schedule := some "30 5 1 1 *" }

/-- A command block with one `step_plugin` and one `node_step_plugin`. -/
def bothPluginsCommand : BlockMap :=
  [ ("description", .prim (.str "run")),
    ("step_plugin", .blocks [[("type", .str "flow"), ("config", .strMap [("k", "v")])]]),
    ("node_step_plugin", .blocks [[("type", .str "exec"), ("config", .strMap [])]]) ]

/-- The command block `bothPluginsCommand` with a second `step_plugin`. -/
def twoStepPluginsCommand : BlockMap :=
  [ ("description", .prim (.str "run")),
    ("step_plugin", .blocks
      [ [("type", .str "flow"), ("config", .strMap [("k", "v")])],
        [("type", .str "other"), ("config", .strMap [])] ]),
    ("node_step_plugin", .blocks [[("type", .str "exec"), ("config", .strMap [])]]) ]

/-- A configuration state holding dispatch, node filter and project values. -/
def priorConfig : ResourceData :=
  { emptyConfig with
    project_name := some "ops"
    max_thread_count := some 4
    continue_on_error := some true
    rank_order := some "descending"
    rank_attribute := some "hostname"
    node_filter_query := some "tags: web"
    node_filter_exclude_precedence := some true }

/-- A job as fetched with an empty project name and none of the optional
parts. -/
def bareJob : JobDetail :=
  { ID := "7", Name := "backup", GroupName := "", ProjectName := "",
    Description := "nightly", LogLevel := "INFO", AllowConcurrentExecutions := false }

/-- A job whose schedule has no weekday part and whose seconds part holds a
space. -/
def spacedSecondsJob : JobDetail :=
  { bareJob with
    Schedule := some
      { Time := { Seconds := "0 0", Minute := "30", Hour := "5" }
        Month := { Day := "1", Month := "1" }
        WeekDay := none
        Year := { Year := "2024" } } }

/-- A job whose schedule has no weekday part. -/
def noWeekDayJob : JobDetail :=
  { bareJob with
    ProjectName := "infra"
    NodeFilter := some { ExcludePrecedence := false, Query := "name: db1" }
    Schedule := some
      { Time := { Seconds := "0", Minute := "30", Hour := "5" }
        Month := { Day := "1", Month := "1" }
        WeekDay := none
        Year := { Year := "2024" } } }

/-- A configuration that declares only the schedule `0 30 5 1 1 * 2024`. -/
def scheduledConfig : ResourceData :=
  { emptyConfig with schedule := some "0 30 5 1 1 * 2024" }

/-- A configuration with one `option` block that declares a description and
two value choices. -/
def describedOptionConfig : ResourceData :=
  { emptyConfig with
    preserve_options_order := some true
    option :=
      [ [ ("name", .str "env"),
          ("default_value", .str "prod"),
          ("value_choices", .strList ["prod", "stage"]),
          ("description", .str "target environment"),
          ("required", .bool true) ] ] }

/-- A configuration with a node filter, one option without value choices and
two commands: a job reference, and the block `bothPluginsCommand`. -/
def twoCommandsConfig : ResourceData :=
  { emptyConfig with
    continue_on_error := some true
    max_thread_count := some 3
    node_filter_query := some "tags: web"
    option := [[("name", .str "env")]]
    command :=
      [ [ ("shell_command", .prim (.str "uptime")),
          ("job", .blocks [[("name", .str "cleanup"), ("run_for_each_node", .bool true)]]) ],
        bothPluginsCommand ] }

/-- A command sequence of two commands that does not continue on error. -/
def fetchedSequence : JobCommandSequence :=
  { ContinueOnError := false
    OrderingStrategy := "node-first"
    Commands :=
      [ { Description := "first", ShellCommand := "uptime", Script := "",
          ScriptFile := "", ScriptFileArgs := "" },
        { Description := "second", ShellCommand := "", Script := "", ScriptFile := "",
          ScriptFileArgs := "",
          StepPlugin := some { Type_ := "flow", Config := [("k", "v")] } } ] }

/-- A job as fetched with two commands and one option. -/
def fetchedJob : JobDetail :=
  { bareJob with
    CommandSequence := some fetchedSequence
    OptionsConfig := some
      { PreserveOrder := true
        Options :=
          [ { Name := "env", DefaultValue := "", ValueChoices := some ["a"],
              ValueChoicesURL := "", RequirePredefinedChoice := false,
              ValidationRegex := "", Description := "", IsRequired := false,
              AllowsMultipleValues := false, MultiValueDelimiter := "",
              ObscureInput := false, ValueIsExposedToScripts := false } ] } }

/-- A configuration state holding one option block and one command block. -/
def staleListsConfig : ResourceData :=
  { scheduledConfig with
    option := [[("name", .str "old")]]
    command := [[("shell_command", .prim (.str "old"))]] }

/-- The job that the decoder returns on `twoCommandsConfig`. -/
def twoCommandsJob : JobDetail :=
  decodedJob twoCommandsConfig
    [ { Description := "", ShellCommand := "uptime", Script := "", ScriptFile := "",
        ScriptFileArgs := "",
        Job := some
          { Name := "cleanup", GroupName := "", RunForEachNode := true, Arguments := "" } },
      { Description := "run", ShellCommand := "", Script := "", ScriptFile := "",
        ScriptFileArgs := "",
        StepPlugin := some { Type_ := "flow", Config := [("k", "v")] },
        NodeStepPlugin := some { Type_ := "exec", Config := [] } } ]

/-- The options config that the decoder builds on `describedOptionConfig`. -/
def describedOptions : JobOptions :=
  { PreserveOrder := true
    Options :=
      [ { Name := "env", DefaultValue := "prod", ValueChoices := some ["prod", "stage"],
          ValueChoicesURL := "", RequirePredefinedChoice := false,
          ValidationRegex := "", Description := "target environment", IsRequired := true,
          AllowsMultipleValues := false, MultiValueDelimiter := "",
          ObscureInput := false, ValueIsExposedToScripts := false } ] }

/-! ## The decoder with a single dispatch-policy construction -/

/-- The variant of `jobFromResourceData` that the refinement statement
compares with: the same steps, except that the node-filter branch only
attaches the node filter and does not construct the dispatch policy a second
time. -/
def jobFromResourceDataDedup (d : ResourceData) : Except String JobDetail :=
  let job : JobDetail :=
    { ID := d.id
      Name := getString d.name
      GroupName := getString d.group_name
      ProjectName := getString d.project_name
      Description := getString d.description
      LogLevel := getString d.log_level
      AllowConcurrentExecutions := getBool d.allow_concurrent_executions
      Dispatch := some
        { MaxThreadCount := getInt d.max_thread_count
          ContinueOnError := getBool d.continue_on_error
          RankAttribute := getString d.rank_attribute
          RankOrder := getString d.rank_order } }
  let sequence : JobCommandSequence :=
    { ContinueOnError := getBool d.continue_on_error
      OrderingStrategy := getString d.command_ordering_strategy
      Commands := [] }
  let commandConfigs := d.command
  match commandsFromConfigs commandConfigs sequence.Commands with
  | .error err => .error err
  | .ok commands =>
    let sequence : JobCommandSequence := { sequence with Commands := commands }
    let job : JobDetail := { job with CommandSequence := some sequence }
    let optionConfigsI := d.option
    let job : JobDetail :=
      if optionConfigsI.length > 0 then
        let optionsConfig : JobOptions :=
          { PreserveOrder := getBool d.preserve_options_order
            Options := [] }
        let optionsConfig : JobOptions :=
          { optionsConfig with
            Options :=
              optionConfigsI.foldl
                (fun options optionI => options ++ [optionFromMap optionI])
                optionsConfig.Options }
        { job with OptionsConfig := some optionsConfig }
      else job
    let job : JobDetail :=
      if getString d.node_filter_query ≠ "" then
        { job with
          NodeFilter := some
            { ExcludePrecedence := getBool d.node_filter_exclude_precedence
              Query := getString d.node_filter_query } }
      else job
    if getString d.schedule ≠ "" then
      let schedule := splitSpace (getString d.schedule)
      if schedule.length ≠ 7 then
        .error scheduleFormatError
      else
        .ok
          { job with
            Schedule := some
              { Time :=
                  { Seconds := schedule.getD 0 ""
                    Minute := schedule.getD 1 ""
                    Hour := schedule.getD 2 "" }
                Month :=
                  { Day := schedule.getD 3 ""
                    Month := schedule.getD 4 "" }
                WeekDay := some { Day := schedule.getD 5 "" }
                Year := { Year := schedule.getD 6 "" } } }
    else .ok job

/-! ## Lifecycle operations

The lifecycle operations talk to the remote service through `importJob`,
`GetJob` and `client.JobGet`, none of which is defined in `resource_job.go`.
They are parameters here. The remote calls issued so far are kept in a log,
and a response may depend on that log. -/

/-- Modelled from the spec: the type `JobSummary` is declared outside
`resource_job.go`; of the summary returned by an import only the ID assigned
by the remote service is used. -/
structure JobSummary where
  ID : String
  deriving DecidableEq, Repr

/-- One call to the remote service. -/
inductive RemoteCall where
  | importJob (job : JobDetail) (mode : String)
  | getJob (id : String)
  | jobGet (id : String)
  deriving DecidableEq, Repr

/-- The remote service as the lifecycle operations see it: the result of
`importJob(client, job, mode)`, of `GetJob(client, id)`, and of
`client.JobGet(ctx, id, "")`, the latter as the status code of the response
and the error value returned with it (`none` is `nil`). Each result may
depend on the calls issued before. -/
structure Client where
  importJob : List RemoteCall → JobDetail → String → Except String JobSummary
  getJob : List RemoteCall → String → Except String JobDetail
  jobGet : List RemoteCall → String → Int × Option String

/-- What a lifecycle operation leaves behind: the error it returns (`none` is
`nil`), the configuration state, and the log of remote calls. -/
structure Outcome where
  err : Option String
  d : ResourceData
  calls : List RemoteCall
  deriving DecidableEq, Repr

/-- `ReadJob`: fetches the job by the resource ID and encodes it into the
configuration; the error of the fetch is returned as it is. -/
def ReadJob (client : Client) (d : ResourceData) (calls : List RemoteCall) : Outcome :=
  match client.getJob calls d.id with
  | .error err => { err := some err, d := d, calls := calls ++ [.getJob d.id] }
  | .ok job => { err := none, d := jobToResourceData job d, calls := calls ++ [.getJob d.id] }

/-- `CreateJob`: decode, import with mode `create`, store the returned ID,
read back. -/
def CreateJob (client : Client) (d : ResourceData) (calls : List RemoteCall) : Outcome :=
  match jobFromResourceData d with
  | .error err => { err := some err, d := d, calls := calls }
  | .ok job =>
    match client.importJob calls job "create" with
    | .error err =>
      { err := some err, d := d, calls := calls ++ [.importJob job "create"] }
    | .ok jobSummary =>
      let d := { d with id := jobSummary.ID }
      ReadJob client d (calls ++ [.importJob job "create"])

/-- `UpdateJob`: decode, import with mode `update`, store the returned ID,
read back. -/
def UpdateJob (client : Client) (d : ResourceData) (calls : List RemoteCall) : Outcome :=
  match jobFromResourceData d with
  | .error err => { err := some err, d := d, calls := calls }
  | .ok job =>
    match client.importJob calls job "update" with
    | .error err =>
      { err := some err, d := d, calls := calls ++ [.importJob job "update"] }
    | .ok jobSummary =>
      let d := { d with id := jobSummary.ID }
      ReadJob client d (calls ++ [.importJob job "update"])

/-- The text that the verb `%v` of `fmt.Errorf` produces for an error value:
its message, or `<nil>` for the nil error. -/
def fmtV (err : Option String) : String :=
  match err with
  | some msg => msg
  | none => "<nil>"

/-- The result of `JobExists`: the flag, the error (`none` is `nil`) and the
log of remote calls. -/
structure ExistsOutcome where
  found : Bool
  err : Option String
  calls : List RemoteCall
  deriving DecidableEq, Repr

/-- `JobExists`: one `client.JobGet` by the resource ID; the status code of
the response decides the result. -/
def JobExists (client : Client) (d : ResourceData) (calls : List RemoteCall) :
    ExistsOutcome :=
  let resp := client.jobGet calls d.id
  let statusCode := resp.1
  let err := resp.2
  let calls := calls ++ [.jobGet d.id]
  if statusCode = 200 then { found := true, err := none, calls := calls }
  else if statusCode = 404 then { found := false, err := none, calls := calls }
  else
    { found := false
      err := some ("Error checking if job exists: (" ++ fmtV err ++ ")")
      calls := calls }

/-- A remote service that accepts every import under the ID `42`, returns
`bareJob` for every fetch, and answers `client.JobGet` with status 200 for
the ID `42`, 404 for the empty ID and 500 with an error otherwise. -/
def sampleClient : Client :=
  { importJob := fun _ _ _ => .ok { ID := "42" }
    getJob := fun _ _ => .ok bareJob
    jobGet := fun _ id =>
      if id = "42" then (200, none)
      else if id = "" then (404, none)
      else (500, some "server error") }

/-! ## Splitting and joining -/

theorem splitChars_ne_nil (cs : List Char) : splitChars cs ≠ [] := by
  induction cs with
  | nil => simp [splitChars]
  | cons c cs ih =>
    unfold splitChars
    split_ifs
    · simp
    · split <;> simp

theorem joinChars_cons_cons (c : Char) (t : List Char) (ts : List (List Char)) :
    joinChars ((c :: t) :: ts) = c :: joinChars (t :: ts) := by
  cases ts <;> simp [joinChars]

theorem joinChars_splitChars (cs : List Char) : joinChars (splitChars cs) = cs := by
  induction cs with
  | nil => simp [splitChars, joinChars]
  | cons c cs ih =>
    unfold splitChars
    split_ifs with hc
    · cases hs : splitChars cs with
      | nil => exact absurd hs (splitChars_ne_nil cs)
      | cons t ts => rw [hs] at ih; simp [joinChars, ih, hc]
    · cases hs : splitChars cs with
      | nil => exact absurd hs (splitChars_ne_nil cs)
      | cons t ts => rw [hs] at ih; simp [joinChars_cons_cons, ih]

theorem joinSpace_splitSpace (s : String) : joinSpace (splitSpace s) = s := by
  simp [joinSpace, splitSpace, Function.comp_def, joinChars_splitChars]

theorem splitChars_of_not_mem (t : List Char) (h : ' ' ∉ t) : splitChars t = [t] := by
  induction t with
  | nil => simp [splitChars]
  | cons c t ih =>
    simp only [List.mem_cons, not_or] at h
    have hc : c ≠ ' ' := fun e => h.1 e.symm
    simp [splitChars, hc, ih h.2]

theorem splitChars_append_space (t rest : List Char) (h : ' ' ∉ t) :
    splitChars (t ++ ' ' :: rest) = t :: splitChars rest := by
  induction t with
  | nil => simp [splitChars]
  | cons c t ih =>
    simp only [List.mem_cons, not_or] at h
    have hc : c ≠ ' ' := fun e => h.1 e.symm
    simp [splitChars, hc, ih h.2]

/-! ## Shape of a decoded job -/

theorem foldl_append_singleton {α β : Type} (f : α → β) (xs : List α) (acc : List β) :
    xs.foldl (fun ys x => ys ++ [f x]) acc = acc ++ xs.map f := by
  induction xs generalizing acc with
  | nil => simp
  | cons x xs ih => simp [ih]

theorem jobFromResourceData_eq (d : ResourceData) :
    jobFromResourceData d =
      match commandsFromConfigs d.command [] with
      | .error err => .error err
      | .ok commands =>
        if getString d.schedule ≠ "" ∧ (splitSpace (getString d.schedule)).length ≠ 7 then
          .error scheduleFormatError
        else .ok (decodedJob d commands) := by
  unfold jobFromResourceData decodedJob
  cases hc : commandsFromConfigs d.command [] with
  | error e => simp [hc]
  | ok commands =>
    by_cases ho : d.option = [] <;> by_cases hq : getString d.node_filter_query = "" <;>
      by_cases hs : getString d.schedule = "" <;>
      by_cases hl : (splitSpace (getString d.schedule)).length = 7 <;>
      simp [hc, ho, hq, hs, hl, foldl_append_singleton, List.length_pos]

/-! ## Shape of an encoded configuration -/

theorem optionToMap_rejected (option : JobOption) :
    keysWithin optionSchemaKeys (optionToMap option) = false := by
  rfl

theorem all_optionToMap (options : List JobOption) :
    (options.map optionToMap).all (keysWithin optionSchemaKeys) = options.isEmpty := by
  cases options with
  | nil => rfl
  | cons option rest => simp [optionToMap_rejected]

theorem commandToMap_accepted (command : JobCommand) :
    commandKeysWithin (commandToMap command) = true := by
  unfold commandToMap
  cases command.Job <;> cases command.StepPlugin <;> cases command.NodeStepPlugin <;> rfl

theorem all_commandToMap (commands : List JobCommand) :
    (commands.map commandToMap).all commandKeysWithin = true := by
  simp [commandToMap_accepted]

theorem jobToResourceData_eq (job : JobDetail) (d : ResourceData) :
    jobToResourceData job d = encodedData job d := by
  have hopt : ∀ optionsConfig : JobOptions,
      (optionsConfig.Options.map optionToMap).all (keysWithin optionSchemaKeys) =
        decide (optionsConfig.Options = []) := by
    intro optionsConfig
    rw [all_optionToMap]
    cases optionsConfig.Options <;> simp
  unfold jobToResourceData encodedData setOptionList setCommandList
  rcases hs : job.Schedule with _ | jobSchedule
  · by_cases hp : job.ProjectName = ""
    all_goals
      rcases ho : job.OptionsConfig with _ | optionsConfig
      · cases hd : job.Dispatch <;> cases hn : job.NodeFilter <;>
          cases hc : job.CommandSequence <;>
          simp [hp, foldl_append_singleton, all_commandToMap]
      · by_cases he : optionsConfig.Options = []
        all_goals
          cases hd : job.Dispatch <;> cases hn : job.NodeFilter <;>
            cases hc : job.CommandSequence <;>
            simp [hp, he, hopt, foldl_append_singleton, all_commandToMap]
  · by_cases hp : job.ProjectName = ""
    all_goals
      rcases ho : job.OptionsConfig with _ | optionsConfig
      · cases hd : job.Dispatch <;> cases hn : job.NodeFilter <;>
          cases hc : job.CommandSequence <;> cases hw : jobSchedule.WeekDay <;>
          simp [hp, hw, foldl_append_singleton, all_commandToMap]
      · by_cases he : optionsConfig.Options = []
        all_goals
          cases hd : job.Dispatch <;> cases hn : job.NodeFilter <;>
            cases hc : job.CommandSequence <;> cases hw : jobSchedule.WeekDay <;>
            simp [hp, he, hw, hopt, foldl_append_singleton, all_commandToMap]

theorem jobFromResourceData_ok {d : ResourceData} {j : JobDetail}
    (h : jobFromResourceData d = .ok j) :
    ∃ commands, commandsFromConfigs d.command [] = .ok commands ∧
      (getString d.schedule = "" ∨ (splitSpace (getString d.schedule)).length = 7) ∧
      j = decodedJob d commands := by
  rw [jobFromResourceData_eq] at h
  cases hc : commandsFromConfigs d.command [] with
  | error e => simp [hc] at h
  | ok commands =>
    simp only [hc] at h
    split_ifs at h with hs
    · simp at h
      refine ⟨commands, rfl, ?_, h.symm⟩
      by_cases he : getString d.schedule = ""
      · exact Or.inl he
      · right
        by_contra hl
        exact hs ⟨he, hl⟩

theorem getD_seven (l : List String) (h : l.length = 7) :
    [l.getD 0 "", l.getD 1 "", l.getD 2 "", l.getD 3 "", l.getD 4 "", l.getD 5 "",
      l.getD 6 ""] = l := by
  match l, h with
  | [_, _, _, _, _, _, _], _ => simp

/-! ## The command loop -/

theorem commandFromMap_job_error (m : BlockMap) (h : 2 ≤ (blocksOf m "job").length) :
    commandFromMap m = .error "rundeck command may have no more than one job" := by
  have h' : (blocksOf m "job").length > 1 := h
  simp [commandFromMap, h']

theorem commandFromMap_step_error (m : BlockMap) (hj : (blocksOf m "job").length ≤ 1)
    (h : 2 ≤ (blocksOf m "step_plugin").length) :
    commandFromMap m = .error "rundeck command may have no more than one step plugin" := by
  have hj' : ¬ (blocksOf m "job").length > 1 := by omega
  have h' : (blocksOf m "step_plugin").length > 1 := h
  simp only [commandFromMap, hj', h', if_true, if_false]

theorem commandFromMap_node_error (m : BlockMap) (hj : (blocksOf m "job").length ≤ 1)
    (hs : (blocksOf m "step_plugin").length ≤ 1)
    (h : 2 ≤ (blocksOf m "node_step_plugin").length) :
    commandFromMap m =
      .error "rundeck command may have no more than one node step plugin" := by
  have hj' : ¬ (blocksOf m "job").length > 1 := by omega
  have hs' : ¬ (blocksOf m "step_plugin").length > 1 := by omega
  have h' : (blocksOf m "node_step_plugin").length > 1 := h
  simp only [commandFromMap, hj', hs', h', if_true, if_false]

theorem commandFromMap_ok (m : BlockMap) (hj : (blocksOf m "job").length ≤ 1)
    (hs : (blocksOf m "step_plugin").length ≤ 1)
    (hn : (blocksOf m "node_step_plugin").length ≤ 1) :
    ∃ command, commandFromMap m = .ok command := by
  have hj' : ¬ (blocksOf m "job").length > 1 := by omega
  have hs' : ¬ (blocksOf m "step_plugin").length > 1 := by omega
  have hn' : ¬ (blocksOf m "node_step_plugin").length > 1 := by omega
  simp only [commandFromMap, hj', hs', hn', if_false]
  exact ⟨_, rfl⟩

/-- A command block with two or more entries of some kind makes
`commandFromMap` return the error of a kind that is over-populated in it. -/
theorem commandFromMap_over (m : BlockMap)
    (h : 2 ≤ (blocksOf m "job").length ∨ 2 ≤ (blocksOf m "step_plugin").length ∨
      2 ≤ (blocksOf m "node_step_plugin").length) :
    (commandFromMap m = .error "rundeck command may have no more than one job" ∧
      2 ≤ (blocksOf m "job").length) ∨
    (commandFromMap m = .error "rundeck command may have no more than one step plugin" ∧
      2 ≤ (blocksOf m "step_plugin").length) ∨
    (commandFromMap m = .error "rundeck command may have no more than one node step plugin" ∧
      2 ≤ (blocksOf m "node_step_plugin").length) := by
  by_cases hj : 2 ≤ (blocksOf m "job").length
  · exact Or.inl ⟨commandFromMap_job_error m hj, hj⟩
  · by_cases hs : 2 ≤ (blocksOf m "step_plugin").length
    · exact Or.inr (Or.inl ⟨commandFromMap_step_error m (by omega) hs, hs⟩)
    · have hn : 2 ≤ (blocksOf m "node_step_plugin").length := by
        rcases h with h | h | h
        · exact absurd h hj
        · exact absurd h hs
        · exact h
      exact Or.inr (Or.inr ⟨commandFromMap_node_error m (by omega) (by omega) hn, hn⟩)

theorem commandsFromConfigs_ok (ms : List BlockMap) (acc : List JobCommand)
    (h : ∀ m ∈ ms, (blocksOf m "job").length ≤ 1 ∧ (blocksOf m "step_plugin").length ≤ 1 ∧
      (blocksOf m "node_step_plugin").length ≤ 1) :
    ∃ commands, commandsFromConfigs ms acc = .ok commands := by
  induction ms generalizing acc with
  | nil => exact ⟨acc, rfl⟩
  | cons m ms ih =>
    obtain ⟨hj, hs, hn⟩ := h m (List.mem_cons_self _ _)
    obtain ⟨command, hc⟩ := commandFromMap_ok m hj hs hn
    simp only [commandsFromConfigs, hc]
    exact ih _ (fun m' hm' => h m' (List.mem_cons_of_mem _ hm'))

/-- When some command block is over-populated the loop ends with the error of
a command block of the list, for a kind over-populated in that block. -/
theorem commandsFromConfigs_over (ms : List BlockMap) (acc : List JobCommand)
    (h : ∃ m ∈ ms, 2 ≤ (blocksOf m "job").length ∨ 2 ≤ (blocksOf m "step_plugin").length ∨
      2 ≤ (blocksOf m "node_step_plugin").length) :
    ∃ m ∈ ms,
      (commandsFromConfigs ms acc = .error "rundeck command may have no more than one job" ∧
        2 ≤ (blocksOf m "job").length) ∨
      (commandsFromConfigs ms acc =
          .error "rundeck command may have no more than one step plugin" ∧
        2 ≤ (blocksOf m "step_plugin").length) ∨
      (commandsFromConfigs ms acc =
          .error "rundeck command may have no more than one node step plugin" ∧
        2 ≤ (blocksOf m "node_step_plugin").length) := by
  induction ms generalizing acc with
  | nil => simp at h
  | cons m ms ih =>
    cases hc : commandFromMap m with
    | error e =>
      have hover : 2 ≤ (blocksOf m "job").length ∨ 2 ≤ (blocksOf m "step_plugin").length ∨
          2 ≤ (blocksOf m "node_step_plugin").length := by
        by_contra hno
        simp only [not_or, not_le] at hno
        obtain ⟨c, hok⟩ := commandFromMap_ok m (by omega) (by omega) (by omega)
        rw [hok] at hc
        cases hc
      refine ⟨m, List.mem_cons_self _ _, ?_⟩
      have hm := commandFromMap_over m hover
      rw [hc] at hm
      simp only [commandsFromConfigs, hc]
      rcases hm with ⟨he, hk⟩ | ⟨he, hk⟩ | ⟨he, hk⟩
      · exact Or.inl ⟨by cases he; rfl, hk⟩
      · exact Or.inr (Or.inl ⟨by cases he; rfl, hk⟩)
      · exact Or.inr (Or.inr ⟨by cases he; rfl, hk⟩)
    | ok command =>
      have hrest : ∃ m' ∈ ms, 2 ≤ (blocksOf m' "job").length ∨
          2 ≤ (blocksOf m' "step_plugin").length ∨
          2 ≤ (blocksOf m' "node_step_plugin").length := by
        obtain ⟨m', hm', hover⟩ := h
        rcases List.mem_cons.mp hm' with rfl | hm'
        · rcases commandFromMap_over m' hover with ⟨he, -⟩ | ⟨he, -⟩ | ⟨he, -⟩ <;>
            (rw [he] at hc; cases hc)
        · exact ⟨m', hm', hover⟩
      obtain ⟨m', hm', hres⟩ := ih (acc ++ [command]) hrest
      refine ⟨m', List.mem_cons_of_mem _ hm', ?_⟩
      simpa only [commandsFromConfigs, hc] using hres

/-! ## Round trip -/

/-- C1, as stated, fails: on a configuration that sets
`node_filter_exclude_precedence` to true without a `node_filter_query` the
decoder succeeds, and writing the decoded job back leaves the flag absent, so
that it reads false. -/
theorem roundtrip_clears_exclude_precedence :
    jobFromResourceData filterFlagConfig = .ok (decodedJob filterFlagConfig []) ∧
    filterFlagConfig.node_filter_exclude_precedence = some true ∧
    (jobToResourceData (decodedJob filterFlagConfig [])
      filterFlagConfig).node_filter_exclude_precedence = none ∧
    getBool (jobToResourceData (decodedJob filterFlagConfig [])
      filterFlagConfig).node_filter_exclude_precedence = false := by
  refine ⟨by rfl, by rfl, by rfl, by rfl⟩

/-- C1, amended: on every configuration `d` on which the decoder succeeds,
writing the decoded job back into `d` leaves the value read from each of the
top-level scalar fields name, group_name, project_name, description,
log_level, allow_concurrent_executions, max_thread_count, continue_on_error,
rank_order, rank_attribute, preserve_options_order,
command_ordering_strategy, node_filter_query and schedule unchanged;
node_filter_exclude_precedence is unchanged when node_filter_query is
non-empty, and is absent afterwards when node_filter_query is empty. -/
theorem scalar_roundtrip (d : ResourceData) (j : JobDetail)
    (hj : jobFromResourceData d = .ok j) :
    getString (jobToResourceData j d).name = getString d.name ∧
    getString (jobToResourceData j d).group_name = getString d.group_name ∧
    getString (jobToResourceData j d).project_name = getString d.project_name ∧
    getString (jobToResourceData j d).description = getString d.description ∧
    getString (jobToResourceData j d).log_level = getString d.log_level ∧
    getBool (jobToResourceData j d).allow_concurrent_executions =
      getBool d.allow_concurrent_executions ∧
    getInt (jobToResourceData j d).max_thread_count = getInt d.max_thread_count ∧
    getBool (jobToResourceData j d).continue_on_error = getBool d.continue_on_error ∧
    getString (jobToResourceData j d).rank_order = getString d.rank_order ∧
    getString (jobToResourceData j d).rank_attribute = getString d.rank_attribute ∧
    getBool (jobToResourceData j d).preserve_options_order =
      getBool d.preserve_options_order ∧
    getString (jobToResourceData j d).command_ordering_strategy =
      getString d.command_ordering_strategy ∧
    getString (jobToResourceData j d).node_filter_query = getString d.node_filter_query ∧
    getString (jobToResourceData j d).schedule = getString d.schedule ∧
    (getString d.node_filter_query ≠ "" →
      getBool (jobToResourceData j d).node_filter_exclude_precedence =
        getBool d.node_filter_exclude_precedence) ∧
    (getString d.node_filter_query = "" →
      (jobToResourceData j d).node_filter_exclude_precedence = none) := by
  obtain ⟨commands, -, hsched, rfl⟩ := jobFromResourceData_ok hj
  rw [jobToResourceData_eq]
  refine ⟨rfl, rfl, ?_, rfl, rfl, rfl, rfl, rfl, rfl, rfl, ?_, rfl, ?_, ?_, ?_, ?_⟩
  · by_cases hp : getString d.project_name = "" <;> simp [encodedData, decodedJob, hp]
    simp [getString]
  · by_cases ho : d.option = [] <;> simp [encodedData, decodedJob, ho]
    simp [getBool]
  · by_cases hq : getString d.node_filter_query = "" <;> simp [encodedData, decodedJob, hq]
    · simp [getString]
    · simp [getString]
  · by_cases hs : getString d.schedule = ""
    · simp [encodedData, decodedJob, hs]
    · have h7 : (splitSpace (getString d.schedule)).length = 7 := hsched.resolve_left hs
      simp only [encodedData, decodedJob, hs, if_false]
      rw [getD_seven _ h7, joinSpace_splitSpace]
      simp [getString]
  · intro hq
    simp [encodedData, decodedJob, hq, getBool]
  · intro hq
    simp [encodedData, decodedJob, hq]

theorem scalar_roundtrip_witness :
    jobFromResourceData scheduledConfig = .ok (decodedJob scheduledConfig []) ∧
    getString (jobToResourceData (decodedJob scheduledConfig []) scheduledConfig).schedule =
      "0 30 5 1 1 * 2024" :=
  ⟨by rfl,
    (scalar_roundtrip scheduledConfig (decodedJob scheduledConfig [])
      (by rfl)).2.2.2.2.2.2.2.2.2.2.2.2.2.1⟩

/-- C2: for a configuration whose schedule string `s` splits on single spaces
into exactly 7 tokens and on which the decoder succeeds, the encoder applied
to the decoded job writes back the schedule string `s`, on any prior
configuration state. -/
theorem schedule_roundtrip (d d0 : ResourceData) (j : JobDetail) (s : String)
    (hs : d.schedule = some s) (h7 : (splitSpace s).length = 7)
    (hj : jobFromResourceData d = .ok j) :
    (jobToResourceData j d0).schedule = some s := by
  obtain ⟨commands, -, -, rfl⟩ := jobFromResourceData_ok hj
  have hne : s ≠ "" := by
    rintro rfl
    simp [splitSpace, splitChars] at h7
  rw [jobToResourceData_eq]
  simp only [encodedData, decodedJob, hs, getString, Option.getD_some, hne, if_false]
  rw [getD_seven _ h7, joinSpace_splitSpace]

theorem schedule_roundtrip_witness :
    (splitSpace "0 30 5 1 1 * 2024").length = 7 ∧
    jobFromResourceData scheduledConfig = .ok (decodedJob scheduledConfig []) ∧
    (jobToResourceData (decodedJob scheduledConfig []) emptyConfig).schedule =
      some "0 30 5 1 1 * 2024" :=
  ⟨by decide, by rfl,
    schedule_roundtrip scheduledConfig emptyConfig (decodedJob scheduledConfig [])
      "0 30 5 1 1 * 2024" rfl (by decide) (by rfl)⟩

/-! ## Validation -/

/-- C3: when some command block of the configuration holds 2 or more `job`
entries, 2 or more `step_plugin` entries or 2 or more `node_step_plugin`
entries, the decoder returns an error (hence no job), and the message is the
one that names a kind of block (job, step plugin, node step plugin) of which
some command block of the configuration holds 2 or more entries. -/
theorem decode_rejects_overpopulated_command (d : ResourceData)
    (h : ∃ m ∈ d.command, 2 ≤ (blocksOf m "job").length ∨
      2 ≤ (blocksOf m "step_plugin").length ∨
      2 ≤ (blocksOf m "node_step_plugin").length) :
    ∃ m ∈ d.command,
      (jobFromResourceData d = .error "rundeck command may have no more than one job" ∧
        2 ≤ (blocksOf m "job").length) ∨
      (jobFromResourceData d =
          .error "rundeck command may have no more than one step plugin" ∧
        2 ≤ (blocksOf m "step_plugin").length) ∨
      (jobFromResourceData d =
          .error "rundeck command may have no more than one node step plugin" ∧
        2 ≤ (blocksOf m "node_step_plugin").length) := by
  obtain ⟨m, hm, hres⟩ := commandsFromConfigs_over d.command [] h
  refine ⟨m, hm, ?_⟩
  rw [jobFromResourceData_eq]
  rcases hres with ⟨he, hk⟩ | ⟨he, hk⟩ | ⟨he, hk⟩
  · exact Or.inl ⟨by rw [he], hk⟩
  · exact Or.inr (Or.inl ⟨by rw [he], hk⟩)
  · exact Or.inr (Or.inr ⟨by rw [he], hk⟩)

theorem decode_rejects_overpopulated_command_witness :
    (∃ m ∈ ({ emptyConfig with command := [twoStepPluginsCommand] } : ResourceData).command,
      2 ≤ (blocksOf m "job").length ∨ 2 ≤ (blocksOf m "step_plugin").length ∨
      2 ≤ (blocksOf m "node_step_plugin").length) ∧
    (∃ m ∈ ({ emptyConfig with command := [twoStepPluginsCommand] } : ResourceData).command,
      (jobFromResourceData { emptyConfig with command := [twoStepPluginsCommand] } =
          .error "rundeck command may have no more than one job" ∧
        2 ≤ (blocksOf m "job").length) ∨
      (jobFromResourceData { emptyConfig with command := [twoStepPluginsCommand] } =
          .error "rundeck command may have no more than one step plugin" ∧
        2 ≤ (blocksOf m "step_plugin").length) ∨
      (jobFromResourceData { emptyConfig with command := [twoStepPluginsCommand] } =
          .error "rundeck command may have no more than one node step plugin" ∧
        2 ≤ (blocksOf m "node_step_plugin").length)) ∧
    jobFromResourceData { emptyConfig with command := [twoStepPluginsCommand] } =
      .error "rundeck command may have no more than one step plugin" :=
  ⟨⟨twoStepPluginsCommand, by decide, by decide⟩,
    decode_rejects_overpopulated_command
      { emptyConfig with command := [twoStepPluginsCommand] }
      ⟨twoStepPluginsCommand, by decide, by decide⟩,
    by rfl⟩

/-- C4, as stated, fails: the empty schedule string does not split into 7
tokens (it splits into one, empty, token), and the decoder succeeds on a
configuration whose schedule is the empty string. -/
theorem decode_accepts_empty_schedule :
    emptyScheduleConfig.schedule = some "" ∧
    (splitSpace "").length ≠ 7 ∧
    jobFromResourceData emptyScheduleConfig = .ok (decodedJob emptyScheduleConfig []) := by
  refine ⟨by rfl, by decide, by rfl⟩

/-- C4, amended: for every non-empty schedule string that does not split on
single spaces into exactly 7 tokens, the decoder returns an error (hence no
job); when no command block is over-populated that error is the one naming
the cron-like format. -/
theorem decode_rejects_bad_schedule (d : ResourceData)
    (hne : getString d.schedule ≠ "")
    (h7 : (splitSpace (getString d.schedule)).length ≠ 7) :
    (∃ err, jobFromResourceData d = .error err) ∧
    ((∀ m ∈ d.command, (blocksOf m "job").length ≤ 1 ∧
        (blocksOf m "step_plugin").length ≤ 1 ∧
        (blocksOf m "node_step_plugin").length ≤ 1) →
      jobFromResourceData d = .error scheduleFormatError) := by
  rw [jobFromResourceData_eq]
  constructor
  · cases hc : commandsFromConfigs d.command [] with
    | error e => exact ⟨e, rfl⟩
    | ok commands => exact ⟨scheduleFormatError, by simp [hne, h7]⟩
  · intro hall
    obtain ⟨commands, hc⟩ := commandsFromConfigs_ok d.command [] hall
    simp [hc, hne, h7]

theorem decode_rejects_bad_schedule_witness :
    getString shortScheduleConfig.schedule ≠ "" ∧
    (splitSpace (getString shortScheduleConfig.schedule)).length ≠ 7 ∧
    jobFromResourceData shortScheduleConfig = .error scheduleFormatError :=
  ⟨by decide, by decide,
    (decode_rejects_bad_schedule shortScheduleConfig (by decide) (by decide)).2
      (by decide)⟩

/-- C5: the decoder succeeds on every configuration in which every command
block has at most one `job`, one `step_plugin` and one `node_step_plugin`
entry and the schedule is not declared (reads empty) or splits into exactly
7 tokens. In particular, with such a schedule, a single command block with
one `step_plugin` and one `node_step_plugin` entry is decoded, and the same
block with a second `step_plugin` entry makes the decoder return the
step-plugin error. -/
theorem decode_succeeds_within_limits :
    (∀ d : ResourceData,
      (∀ m ∈ d.command, (blocksOf m "job").length ≤ 1 ∧
        (blocksOf m "step_plugin").length ≤ 1 ∧
        (blocksOf m "node_step_plugin").length ≤ 1) →
      (getString d.schedule = "" ∨ (splitSpace (getString d.schedule)).length = 7) →
      ∃ j, jobFromResourceData d = .ok j) ∧
    (∀ (d : ResourceData) (m : BlockMap) (p q : FlatMap),
      (getString d.schedule = "" ∨ (splitSpace (getString d.schedule)).length = 7) →
      (blocksOf m "job").length ≤ 1 →
      blocksOf m "step_plugin" = [p] → blocksOf m "node_step_plugin" = [q] →
      ∃ j, jobFromResourceData { d with command := [m] } = .ok j) ∧
    (∀ (d : ResourceData) (m : BlockMap) (p q r : FlatMap),
      (getString d.schedule = "" ∨ (splitSpace (getString d.schedule)).length = 7) →
      (blocksOf m "job").length ≤ 1 →
      blocksOf m "step_plugin" = [p] → blocksOf m "node_step_plugin" = [q] →
      jobFromResourceData
          { d with command := [("step_plugin", Value.blocks [p, r]) :: m] } =
        .error "rundeck command may have no more than one step plugin") := by
  have main : ∀ d : ResourceData,
      (∀ m ∈ d.command, (blocksOf m "job").length ≤ 1 ∧
        (blocksOf m "step_plugin").length ≤ 1 ∧
        (blocksOf m "node_step_plugin").length ≤ 1) →
      (getString d.schedule = "" ∨ (splitSpace (getString d.schedule)).length = 7) →
      ∃ j, jobFromResourceData d = .ok j := by
    intro d hall hsched
    obtain ⟨commands, hc⟩ := commandsFromConfigs_ok d.command [] hall
    refine ⟨decodedJob d commands, ?_⟩
    rw [jobFromResourceData_eq]
    rcases hsched with hs | hs <;> simp [hc, hs]
  refine ⟨main, ?_, ?_⟩
  · intro d m p q hsched hj hp hq
    apply main
    · intro m' hm'
      simp only [List.mem_singleton] at hm'
      subst hm'
      simp [hj, hp, hq]
    · exact hsched
  · intro d m p q r _ hj _ _
    have hjob : blocksOf (("step_plugin", Value.blocks [p, r]) :: m) "job" =
        blocksOf m "job" := by
      simp [blocksOf, List.lookup]
    have hstep : blocksOf (("step_plugin", Value.blocks [p, r]) :: m) "step_plugin" =
        [p, r] := by
      simp [blocksOf, List.lookup]
    rw [jobFromResourceData_eq]
    simp only [commandsFromConfigs]
    rw [commandFromMap_step_error _ (by rw [hjob]; exact hj) (by rw [hstep]; simp)]

theorem decode_succeeds_within_limits_witness :
    (∃ j, jobFromResourceData
      { scheduledConfig with command := [bothPluginsCommand] } = .ok j) ∧
    (∃ j, jobFromResourceData { emptyConfig with command := [bothPluginsCommand] } =
      .ok j) ∧
    jobFromResourceData
        { emptyConfig with
          command := [("step_plugin", Value.blocks
            [ [("type", .str "flow"), ("config", .strMap [("k", "v")])],
              [("type", .str "other"), ("config", .strMap [])] ]) ::
            bothPluginsCommand] } =
      .error "rundeck command may have no more than one step plugin" :=
  ⟨decode_succeeds_within_limits.1
      { scheduledConfig with command := [bothPluginsCommand] }
      (by decide) (Or.inr (by decide)),
    decode_succeeds_within_limits.2.1 emptyConfig bothPluginsCommand _ _
      (Or.inl (by decide)) (by decide) rfl rfl,
    decode_succeeds_within_limits.2.2 emptyConfig bothPluginsCommand _ _ _
      (Or.inl (by decide)) (by decide) rfl rfl⟩

/-- C6: when the schedule string of the configuration splits on single
spaces into exactly the 7 tokens `t0` … `t6`, a job returned by the decoder
has a schedule with seconds `t0`, minute `t1`, hour `t2`, day of month `t3`,
month `t4`, weekday `t5` and year `t6`; the weekday component is present. -/
theorem decode_schedule_fields (d : ResourceData) (j : JobDetail)
    (s t0 t1 t2 t3 t4 t5 t6 : String)
    (hs : d.schedule = some s) (ht : splitSpace s = [t0, t1, t2, t3, t4, t5, t6])
    (hj : jobFromResourceData d = .ok j) :
    j.Schedule = some
      { Time := { Seconds := t0, Minute := t1, Hour := t2 }
        Month := { Day := t3, Month := t4 }
        WeekDay := some { Day := t5 }
        Year := { Year := t6 } } := by
  obtain ⟨commands, -, -, rfl⟩ := jobFromResourceData_ok hj
  have hne : s ≠ "" := by
    rintro rfl
    simp [splitSpace, splitChars] at ht
  simp [decodedJob, hs, getString, hne, ht]

theorem decode_schedule_fields_witness :
    splitSpace "0 30 5 1 1 * 2024" = ["0", "30", "5", "1", "1", "*", "2024"] ∧
    jobFromResourceData scheduledConfig = .ok (decodedJob scheduledConfig []) ∧
    (decodedJob scheduledConfig []).Schedule = some
      { Time := { Seconds := "0", Minute := "30", Hour := "5" }
        Month := { Day := "1", Month := "1" }
        WeekDay := some { Day := "*" }
        Year := { Year := "2024" } } :=
  ⟨by decide, by rfl,
    decode_schedule_fields scheduledConfig (decodedJob scheduledConfig [])
      "0 30 5 1 1 * 2024" "0" "30" "5" "1" "1" "*" "2024" rfl (by decide) (by rfl)⟩

/-! ## Encoder -/

/-- C7: for every job whose dispatch policy is absent and every prior
configuration state, after the encoder `max_thread_count` is 1, `rank_order`
is "ascending", and `continue_on_error` and `rank_attribute` are absent. -/
theorem encode_absent_dispatch (job : JobDetail) (d : ResourceData)
    (h : job.Dispatch = none) :
    (jobToResourceData job d).max_thread_count = some 1 ∧
    (jobToResourceData job d).rank_order = some "ascending" ∧
    (jobToResourceData job d).continue_on_error = none ∧
    (jobToResourceData job d).rank_attribute = none := by
  rw [jobToResourceData_eq]
  simp [encodedData, h]

theorem encode_absent_dispatch_witness :
    bareJob.Dispatch = none ∧
    priorConfig.max_thread_count = some 4 ∧
    (jobToResourceData bareJob priorConfig).max_thread_count = some 1 ∧
    (jobToResourceData bareJob priorConfig).rank_order = some "ascending" ∧
    (jobToResourceData bareJob priorConfig).continue_on_error = none ∧
    (jobToResourceData bareJob priorConfig).rank_attribute = none :=
  ⟨rfl, rfl, encode_absent_dispatch bareJob priorConfig rfl⟩

/-- C8, as stated, fails: for a job whose schedule has no weekday part and
whose seconds part is `0 0`, the schedule string written by the encoder is
`0 0 30 5 1 1 * 2024`, whose 6th token is `1`, not `*`. -/
theorem encode_weekday_token_shifted :
    (jobToResourceData spacedSecondsJob emptyConfig).schedule =
      some "0 0 30 5 1 1 * 2024" ∧
    (splitSpace "0 0 30 5 1 1 * 2024")[5]? = some "1" ∧
    (splitSpace "0 0 30 5 1 1 * 2024")[5]? ≠ some "*" := by
  refine ⟨by rfl, by decide, by decide⟩

/-- C8, amended: for every job that has a schedule whose weekday component is
absent and whose seconds, minute, hour, day-of-month and month components
contain no space, the encoder writes a schedule string which, split on
single spaces, has `*` as its 6th token. -/
theorem encode_absent_weekday (job : JobDetail) (d : ResourceData)
    (jobSchedule : JobSchedule)
    (hs : job.Schedule = some jobSchedule) (hw : jobSchedule.WeekDay = none)
    (h0 : ' ' ∉ jobSchedule.Time.Seconds.data) (h1 : ' ' ∉ jobSchedule.Time.Minute.data)
    (h2 : ' ' ∉ jobSchedule.Time.Hour.data) (h3 : ' ' ∉ jobSchedule.Month.Day.data)
    (h4 : ' ' ∉ jobSchedule.Month.Month.data) :
    ∃ s, (jobToResourceData job d).schedule = some s ∧ (splitSpace s)[5]? = some "*" := by
  rw [jobToResourceData_eq]
  refine ⟨joinSpace
    [jobSchedule.Time.Seconds, jobSchedule.Time.Minute, jobSchedule.Time.Hour,
      jobSchedule.Month.Day, jobSchedule.Month.Month, "*", jobSchedule.Year.Year],
    by simp only [encodedData, hs, hw], ?_⟩
  have hstar : ' ' ∉ "*".data := by decide
  simp only [splitSpace, joinSpace, List.map, joinChars]
  rw [splitChars_append_space _ _ h0, splitChars_append_space _ _ h1,
    splitChars_append_space _ _ h2, splitChars_append_space _ _ h3,
    splitChars_append_space _ _ h4, splitChars_append_space _ _ hstar]
  simp

theorem encode_absent_weekday_witness :
    (jobToResourceData noWeekDayJob emptyConfig).schedule = some "0 30 5 1 1 * 2024" ∧
    ∃ s, (jobToResourceData noWeekDayJob emptyConfig).schedule = some s ∧
      (splitSpace s)[5]? = some "*" :=
  ⟨by rfl,
    encode_absent_weekday noWeekDayJob emptyConfig _ rfl rfl (by decide) (by decide)
      (by decide) (by decide) (by decide)⟩

/-- C9: for every job and every prior configuration state, the encoder
leaves `project_name` at its prior value when the job's project name is
empty, and sets it to the job's project name when that is non-empty. -/
theorem encode_project_name (job : JobDetail) (d : ResourceData) :
    (job.ProjectName = "" → (jobToResourceData job d).project_name = d.project_name) ∧
    (job.ProjectName ≠ "" →
      (jobToResourceData job d).project_name = some job.ProjectName) := by
  rw [jobToResourceData_eq]
  constructor <;> intro h <;> simp [encodedData, h]

theorem encode_project_name_witness :
    (jobToResourceData bareJob priorConfig).project_name = some "ops" ∧
    (jobToResourceData noWeekDayJob priorConfig).project_name = some "infra" :=
  ⟨(encode_project_name bareJob priorConfig).1 rfl,
    (encode_project_name noWeekDayJob priorConfig).2 (by decide)⟩

/-- C10: for every job and every prior configuration state, after the
encoder `node_filter_query` and `node_filter_exclude_precedence` are both
absent when the job has no node filter, and equal the filter's query and
exclude-precedence flag when it has one. -/
theorem encode_node_filter (job : JobDetail) (d : ResourceData) :
    (job.NodeFilter = none →
      (jobToResourceData job d).node_filter_query = none ∧
      (jobToResourceData job d).node_filter_exclude_precedence = none) ∧
    (∀ nodeFilter, job.NodeFilter = some nodeFilter →
      (jobToResourceData job d).node_filter_query = some nodeFilter.Query ∧
      (jobToResourceData job d).node_filter_exclude_precedence =
        some nodeFilter.ExcludePrecedence) := by
  rw [jobToResourceData_eq]
  constructor
  · intro h
    simp [encodedData, h]
  · intro nodeFilter h
    simp [encodedData, h]

theorem encode_node_filter_witness :
    priorConfig.node_filter_query = some "tags: web" ∧
    ((jobToResourceData bareJob priorConfig).node_filter_query = none ∧
      (jobToResourceData bareJob priorConfig).node_filter_exclude_precedence = none) ∧
    ((jobToResourceData noWeekDayJob priorConfig).node_filter_query = some "name: db1" ∧
      (jobToResourceData noWeekDayJob priorConfig).node_filter_exclude_precedence =
        some false) :=
  ⟨rfl, (encode_node_filter bareJob priorConfig).1 rfl,
    (encode_node_filter noWeekDayJob priorConfig).2 _ rfl⟩

theorem encode_schedule_of_none (job : JobDetail) (d : ResourceData)
    (h : job.Schedule = none) :
    (jobToResourceData job d).schedule = d.schedule := by
  rw [jobToResourceData_eq]
  simp [encodedData, h]

/-- C11 does not hold of the code: for the job `bareJob`, which has no
schedule, and a prior configuration state whose schedule is
`0 30 5 1 1 * 2024`, the schedule field after the encoder still holds that
string and reads non-empty. -/
theorem encode_keeps_stale_schedule :
    bareJob.Schedule = none ∧
    scheduledConfig.schedule = some "0 30 5 1 1 * 2024" ∧
    (jobToResourceData bareJob scheduledConfig).schedule = some "0 30 5 1 1 * 2024" ∧
    getString (jobToResourceData bareJob scheduledConfig).schedule ≠ "" := by
  refine ⟨by rfl, by rfl, by rfl, by decide⟩

/-- The command list after the encoder is the list of the maps built from
the commands of the job's command sequence, one per command in the same
order, and is empty when the sequence is absent, whatever the prior state. -/
theorem encode_command_list (job : JobDetail) (d : ResourceData) :
    (∀ commandSequence, job.CommandSequence = some commandSequence →
      (jobToResourceData job d).command = commandSequence.Commands.map commandToMap) ∧
    (job.CommandSequence = none → (jobToResourceData job d).command = []) := by
  simp only [jobToResourceData_eq]
  constructor
  · intro commandSequence h
    simp [encodedData, h]
  · intro h
    simp [encodedData, h]

/-- The option list after the encoder: empty when the job has no option, the
prior list when the job has an option. -/
theorem encode_option_list (job : JobDetail) (d : ResourceData) :
    (job.OptionsConfig = none → (jobToResourceData job d).option = []) ∧
    (∀ optionsConfig, job.OptionsConfig = some optionsConfig →
      optionsConfig.Options = [] → (jobToResourceData job d).option = []) ∧
    (∀ optionsConfig, job.OptionsConfig = some optionsConfig →
      optionsConfig.Options ≠ [] → (jobToResourceData job d).option = d.option) := by
  simp only [jobToResourceData_eq]
  refine ⟨?_, ?_, ?_⟩
  · intro h
    simp [encodedData, h]
  · intro optionsConfig h he
    simp [encodedData, h, he]
  · intro optionsConfig h he
    simp [encodedData, h, he]

/-- C12 does not hold of the code: the job `fetchedJob` has two commands and
one option, named `env`; encoded into a state that holds one command and the
option `old`, the command list is rebuilt with two entries, but the option
list still is the prior one, with the entry `old` and no entry for `env`,
because the map built for an option has the key `decription`, which is
outside the option schema, and the write of the list is rejected. -/
theorem encode_keeps_stale_options :
    (∃ optionsConfig option, fetchedJob.OptionsConfig = some optionsConfig ∧
      optionsConfig.Options = [option] ∧ option.Name = "env" ∧
      keysWithin optionSchemaKeys (optionToMap option) = false ∧
      (optionToMap option).lookup "decription" = some (.str option.Description)) ∧
    staleListsConfig.option = [[("name", .str "old")]] ∧
    (jobToResourceData fetchedJob staleListsConfig).option = [[("name", .str "old")]] ∧
    (jobToResourceData fetchedJob staleListsConfig).command.length = 2 ∧
    (jobToResourceData fetchedJob emptyConfig).option = [] := by
  refine ⟨⟨_, _, rfl, rfl, by rfl, by rfl, by rfl⟩, by rfl, by rfl, by rfl, by rfl⟩

/-! ## Options -/

theorem foldl_append_some (xs acc : List String) :
    xs.foldl (fun choices iv => some (choices.getD [] ++ [iv])) (some acc) =
      some (acc ++ xs) := by
  induction xs generalizing acc with
  | nil => simp
  | cons x xs ih => simp [ih]

theorem optionFromMap_valueChoices (m : FlatMap) :
    (optionFromMap m).ValueChoices = some (strListOf m "value_choices") := by
  simp [optionFromMap, foldl_append_some]

/-- The map that the encoder builds for a decoded option block holds, under
the schema keys other than `description`, what the declared block holds. -/
theorem optionToMap_optionFromMap (m : FlatMap) :
    strOf (optionToMap (optionFromMap m)) "name" = strOf m "name" ∧
    strOf (optionToMap (optionFromMap m)) "default_value" = strOf m "default_value" ∧
    strListOf (optionToMap (optionFromMap m)) "value_choices" =
      strListOf m "value_choices" ∧
    strOf (optionToMap (optionFromMap m)) "value_choices_url" =
      strOf m "value_choices_url" ∧
    boolOf (optionToMap (optionFromMap m)) "require_predefined_choice" =
      boolOf m "require_predefined_choice" ∧
    strOf (optionToMap (optionFromMap m)) "validation_regex" =
      strOf m "validation_regex" ∧
    boolOf (optionToMap (optionFromMap m)) "required" = boolOf m "required" ∧
    boolOf (optionToMap (optionFromMap m)) "allow_multiple_values" =
      boolOf m "allow_multiple_values" ∧
    strOf (optionToMap (optionFromMap m)) "multi_value_delimiter" =
      strOf m "multi_value_delimiter" ∧
    boolOf (optionToMap (optionFromMap m)) "obscure_input" = boolOf m "obscure_input" ∧
    boolOf (optionToMap (optionFromMap m)) "exposed_to_scripts" =
      boolOf m "exposed_to_scripts" := by
  have hv := optionFromMap_valueChoices m
  have hlook : ∀ option : JobOption,
      (optionToMap option).lookup "name" = some (.str option.Name) ∧
      (optionToMap option).lookup "default_value" = some (.str option.DefaultValue) ∧
      (optionToMap option).lookup "value_choices" =
        some (.strList (option.ValueChoices.getD [])) ∧
      (optionToMap option).lookup "value_choices_url" =
        some (.str option.ValueChoicesURL) ∧
      (optionToMap option).lookup "require_predefined_choice" =
        some (.bool option.RequirePredefinedChoice) ∧
      (optionToMap option).lookup "validation_regex" =
        some (.str option.ValidationRegex) ∧
      (optionToMap option).lookup "required" = some (.bool option.IsRequired) ∧
      (optionToMap option).lookup "allow_multiple_values" =
        some (.bool option.AllowsMultipleValues) ∧
      (optionToMap option).lookup "multi_value_delimiter" =
        some (.str option.MultiValueDelimiter) ∧
      (optionToMap option).lookup "obscure_input" = some (.bool option.ObscureInput) ∧
      (optionToMap option).lookup "exposed_to_scripts" =
        some (.bool option.ValueIsExposedToScripts) := by
    intro option
    simp [optionToMap, List.lookup]
  obtain ⟨h1, h2, h3, h4, h5, h6, h7, h8, h9, h10, h11⟩ := hlook (optionFromMap m)
  refine ⟨?_, ?_, ?_, ?_, ?_, ?_, ?_, ?_, ?_, ?_, ?_⟩
  · rw [strOf, h1]; rfl
  · rw [strOf, h2]; rfl
  · rw [strListOf, h3, hv]; rfl
  · rw [strOf, h4]; rfl
  · rw [boolOf, h5]; rfl
  · rw [strOf, h6]; rfl
  · rw [boolOf, h7]; rfl
  · rw [boolOf, h8]; rfl
  · rw [strOf, h9]; rfl
  · rw [boolOf, h10]; rfl
  · rw [boolOf, h11]; rfl

/-- The map that the encoder builds for any option has no key `description`:
the description is stored under the key `decription`. -/
theorem optionToMap_description (option : JobOption) :
    (optionToMap option).lookup "description" = none ∧
    (optionToMap option).lookup "decription" = some (.str option.Description) := by
  simp [optionToMap, List.lookup]

/-- C13 does not hold of the code: on `describedOptionConfig`, whose one
option block declares the name `env` and the description
`target environment`, the decoder succeeds; the map built for the decoded
option has the key `decription`, outside the option schema, so the write of
the option list is rejected and the state keeps its prior option list. Encoded
into a state that holds the option `old`, the result has the entry `old`,
which reproduces neither the declared name nor the declared description;
encoded into the empty state, the result has no entry. Only in the declaring
configuration itself do the declared blocks remain, untouched. -/
theorem option_roundtrip_keeps_prior_options :
    jobFromResourceData describedOptionConfig =
      .ok (decodedJob describedOptionConfig []) ∧
    (∃ block, describedOptionConfig.option = [block] ∧ strOf block "name" = "env" ∧
      strOf block "description" = "target environment" ∧
      keysWithin optionSchemaKeys (optionToMap (optionFromMap block)) = false) ∧
    (∃ entry,
      (jobToResourceData (decodedJob describedOptionConfig [])
        staleListsConfig).option = [entry] ∧
      strOf entry "name" = "old" ∧ strOf entry "description" = "") ∧
    (jobToResourceData (decodedJob describedOptionConfig []) emptyConfig).option = [] ∧
    (jobToResourceData (decodedJob describedOptionConfig [])
      describedOptionConfig).option = describedOptionConfig.option := by
  refine ⟨by rfl, ⟨_, rfl, by decide, by decide, by rfl⟩, ⟨_, by rfl, by decide, by decide⟩,
    by rfl, by rfl⟩

/-- C14: a job returned by the decoder has an options config exactly when the
configuration declares at least one option block; that options config
carries `preserve_options_order`, has one option per declared block in
declaration order, each built from its block, and the value choices of each
option are present (a non-nil slice) and equal to the declared
`value_choices`: the list stored under that key of the block, and the empty
list when the block declares none. -/
theorem decode_options (d : ResourceData) (j : JobDetail)
    (hj : jobFromResourceData d = .ok j) :
    (j.OptionsConfig.isSome = true ↔ 0 < d.option.length) ∧
    (∀ optionsConfig, j.OptionsConfig = some optionsConfig →
      optionsConfig.PreserveOrder = getBool d.preserve_options_order ∧
      (∀ flag, d.preserve_options_order = some flag → optionsConfig.PreserveOrder = flag) ∧
      optionsConfig.Options.length = d.option.length ∧
      optionsConfig.Options = d.option.map optionFromMap ∧
      ∀ (i : Nat) (block : FlatMap), d.option[i]? = some block →
        ∃ option, optionsConfig.Options[i]? = some option ∧
          option = optionFromMap block ∧
          option.ValueChoices = some (strListOf block "value_choices") ∧
          (∀ xs, block.lookup "value_choices" = some (.strList xs) →
            option.ValueChoices = some xs) ∧
          (block.lookup "value_choices" = none → option.ValueChoices = some []) ∧
          (∀ s, block.lookup "name" = some (.str s) → option.Name = s)) := by
  obtain ⟨commands, -, -, rfl⟩ := jobFromResourceData_ok hj
  by_cases ho : d.option = []
  · simp [decodedJob, ho]
  · constructor
    · simp [decodedJob, ho, List.length_pos]
    · intro optionsConfig hoc
      simp only [decodedJob, ho, if_false, Option.some.injEq] at hoc
      subst hoc
      refine ⟨rfl, ?_, by simp, rfl, ?_⟩
      · intro flag hflag
        simp [getBool, hflag]
      · intro i block hb
        refine ⟨optionFromMap block, by simp [hb], rfl, optionFromMap_valueChoices block,
          ?_, ?_, ?_⟩
        · intro xs hxs
          rw [optionFromMap_valueChoices]
          simp [strListOf, hxs]
        · intro hnone
          rw [optionFromMap_valueChoices]
          simp [strListOf, hnone]
        · intro s hs
          simp [optionFromMap, strOf, hs]

theorem decode_options_witness :
    jobFromResourceData describedOptionConfig =
      .ok (decodedJob describedOptionConfig []) ∧
    (decodedJob describedOptionConfig []).OptionsConfig = some describedOptions ∧
    describedOptions.PreserveOrder = true ∧
    (∃ option, describedOptions.Options[0]? = some option ∧
      option.ValueChoices = some ["prod", "stage"] ∧ option.Name = "env") ∧
    jobFromResourceData twoCommandsConfig = .ok twoCommandsJob ∧
    (twoCommandsJob.OptionsConfig.isSome = true ↔ 0 < twoCommandsConfig.option.length) ∧
    (∃ option, [optionFromMap [("name", .str "env")]][0]? = some option ∧
      option.ValueChoices = some [] ∧ option.Name = "env") ∧
    (jobFromResourceData emptyConfig = .ok (decodedJob emptyConfig []) ∧
      ((decodedJob emptyConfig []).OptionsConfig.isSome = true ↔
        0 < emptyConfig.option.length) ∧
      (decodedJob emptyConfig []).OptionsConfig = none) :=
  ⟨by rfl, by rfl,
    ((decode_options describedOptionConfig (decodedJob describedOptionConfig [])
      (by rfl)).2 describedOptions (by rfl)).2.1 true (by rfl),
    (((decode_options describedOptionConfig (decodedJob describedOptionConfig [])
      (by rfl)).2 describedOptions (by rfl)).2.2.2.2 0
        [ ("name", .str "env"),
          ("default_value", .str "prod"),
          ("value_choices", .strList ["prod", "stage"]),
          ("description", .str "target environment"),
          ("required", .bool true) ] (by rfl)).imp
      (fun _ h => ⟨h.1, h.2.2.2.1 ["prod", "stage"] (by rfl), h.2.2.2.2.2 "env" (by rfl)⟩),
    by rfl,
    (decode_options twoCommandsConfig twoCommandsJob (by rfl)).1,
    (((decode_options twoCommandsConfig twoCommandsJob (by rfl)).2
      { PreserveOrder := false, Options := [optionFromMap [("name", .str "env")]] }
      (by rfl)).2.2.2.2 0 [("name", .str "env")] (by rfl)).imp
      (fun _ h => ⟨h.1, h.2.2.2.2.1 (by rfl), h.2.2.2.2.2 "env" (by rfl)⟩),
    by rfl, (decode_options emptyConfig (decodedJob emptyConfig []) (by rfl)).1, by rfl⟩

/-! ## Idempotence of the encoder -/

/-- C15: the encoder is idempotent on the configuration state: for every job
and every configuration state `d`, encoding the job into the state that
results from encoding it into `d` gives that same state again. -/
theorem encode_idempotent (job : JobDetail) (d : ResourceData) :
    jobToResourceData job (jobToResourceData job d) = jobToResourceData job d := by
  simp only [jobToResourceData_eq]
  by_cases hp : job.ProjectName = ""
  all_goals
    rcases ho : job.OptionsConfig with _ | optionsConfig
    · cases hc : job.CommandSequence <;> cases hs : job.Schedule <;>
        simp [encodedData, hp, ho, hc, hs]
    · by_cases he : optionsConfig.Options = []
      all_goals
        cases hc : job.CommandSequence <;> cases hs : job.Schedule <;>
          simp [encodedData, hp, ho, hc, hs, he]

/-! ## Lifecycle operations -/

/-- C16: on every configuration on which the decoder fails, `CreateJob` and
`UpdateJob` return the decoder's error, issue no remote call (the log of
calls is as before, so no import and no get) and leave the configuration
state, the resource ID included, as it was. -/
theorem lifecycle_aborts_on_decode_error (client : Client) (d : ResourceData)
    (calls : List RemoteCall) (err : String)
    (h : jobFromResourceData d = .error err) :
    CreateJob client d calls = { err := some err, d := d, calls := calls } ∧
    UpdateJob client d calls = { err := some err, d := d, calls := calls } ∧
    (CreateJob client d calls).d.id = d.id ∧
    (UpdateJob client d calls).d.id = d.id := by
  simp [CreateJob, UpdateJob, h]

theorem lifecycle_aborts_on_decode_error_witness :
    jobFromResourceData shortScheduleConfig = .error scheduleFormatError ∧
    CreateJob sampleClient shortScheduleConfig [] =
      { err := some scheduleFormatError, d := shortScheduleConfig, calls := [] } ∧
    UpdateJob sampleClient shortScheduleConfig [] =
      { err := some scheduleFormatError, d := shortScheduleConfig, calls := [] } ∧
    (CreateJob sampleClient scheduledConfig []).calls =
      [.importJob (decodedJob scheduledConfig []) "create", .getJob "42"] :=
  ⟨by rfl,
    (lifecycle_aborts_on_decode_error sampleClient shortScheduleConfig [] _ (by rfl)).1,
    (lifecycle_aborts_on_decode_error sampleClient shortScheduleConfig [] _ (by rfl)).2.1,
    by rfl⟩

/-- C17: `JobExists` is decided by the status code of the response to the
get-by-ID call alone: status 200 gives true and no error, status 404 gives
false and no error, whatever error value came with the response; every other
status gives false and an error whose message embeds the text of the
underlying error value. -/
theorem jobExists_by_status (client : Client) (d : ResourceData)
    (calls : List RemoteCall) :
    ((client.jobGet calls d.id).1 = 200 →
      (JobExists client d calls).found = true ∧ (JobExists client d calls).err = none) ∧
    ((client.jobGet calls d.id).1 = 404 →
      (JobExists client d calls).found = false ∧ (JobExists client d calls).err = none) ∧
    ((client.jobGet calls d.id).1 ≠ 200 → (client.jobGet calls d.id).1 ≠ 404 →
      (JobExists client d calls).found = false ∧
      (JobExists client d calls).err =
        some ("Error checking if job exists: (" ++ fmtV (client.jobGet calls d.id).2 ++ ")")) ∧
    (JobExists client d calls).calls = calls ++ [.jobGet d.id] := by
  refine ⟨?_, ?_, ?_, ?_⟩
  · intro h
    simp [JobExists, h]
  · intro h
    simp [JobExists, h]
  · intro h2 h4
    simp [JobExists, h2, h4]
  · by_cases h2 : (client.jobGet calls d.id).1 = 200
    · simp [JobExists, h2]
    · by_cases h4 : (client.jobGet calls d.id).1 = 404
      · simp [JobExists, h4]
      · simp [JobExists, h2, h4]

theorem jobExists_by_status_witness :
    ((JobExists sampleClient { emptyConfig with id := "42" } []).found = true ∧
      (JobExists sampleClient { emptyConfig with id := "42" } []).err = none) ∧
    ((JobExists sampleClient emptyConfig []).found = false ∧
      (JobExists sampleClient emptyConfig []).err = none) ∧
    ((JobExists sampleClient { emptyConfig with id := "9" } []).found = false ∧
      (JobExists sampleClient { emptyConfig with id := "9" } []).err =
        some "Error checking if job exists: (server error)") :=
  ⟨(jobExists_by_status sampleClient { emptyConfig with id := "42" } []).1 (by rfl),
    (jobExists_by_status sampleClient emptyConfig []).2.1 (by rfl),
    (jobExists_by_status sampleClient { emptyConfig with id := "9" } []).2.2.1
      (by decide) (by decide)⟩

/-! ## The duplicated dispatch-policy construction -/

theorem jobFromResourceDataDedup_eq (d : ResourceData) :
    jobFromResourceDataDedup d =
      match commandsFromConfigs d.command [] with
      | .error err => .error err
      | .ok commands =>
        if getString d.schedule ≠ "" ∧ (splitSpace (getString d.schedule)).length ≠ 7 then
          .error scheduleFormatError
        else .ok (decodedJob d commands) := by
  unfold jobFromResourceDataDedup decodedJob
  cases hc : commandsFromConfigs d.command [] with
  | error e => simp [hc]
  | ok commands =>
    by_cases ho : d.option = [] <;> by_cases hq : getString d.node_filter_query = "" <;>
      by_cases hs : getString d.schedule = "" <;>
      by_cases hl : (splitSpace (getString d.schedule)).length = 7 <;>
      simp [hc, ho, hq, hs, hl, foldl_append_singleton, List.length_pos]

/-- C18: on every configuration the decoder returns the same result as the
variant without the second dispatch-policy construction; a decoded job always
has a dispatch policy with max thread count, continue-on-error, rank
attribute and rank order taken from the configuration, whether or not
`node_filter_query` is set, and has a node filter exactly when
`node_filter_query` is non-empty. -/
theorem decode_refines_dedup (d : ResourceData) :
    jobFromResourceData d = jobFromResourceDataDedup d ∧
    (∀ j, jobFromResourceData d = .ok j →
      j.Dispatch = some
        { MaxThreadCount := getInt d.max_thread_count
          ContinueOnError := getBool d.continue_on_error
          RankAttribute := getString d.rank_attribute
          RankOrder := getString d.rank_order } ∧
      (j.NodeFilter.isSome = true ↔ getString d.node_filter_query ≠ "")) := by
  constructor
  · rw [jobFromResourceData_eq, jobFromResourceDataDedup_eq]
  · intro j hj
    obtain ⟨commands, -, -, rfl⟩ := jobFromResourceData_ok hj
    by_cases hq : getString d.node_filter_query = "" <;> simp [decodedJob, hq]

theorem decode_refines_dedup_witness :
    jobFromResourceData twoCommandsConfig = jobFromResourceDataDedup twoCommandsConfig ∧
    jobFromResourceDataDedup twoCommandsConfig = .ok twoCommandsJob ∧
    twoCommandsJob.Dispatch = some
      { MaxThreadCount := 3, ContinueOnError := true, RankAttribute := "", RankOrder := "" } ∧
    (twoCommandsJob.NodeFilter.isSome = true ↔
      getString twoCommandsConfig.node_filter_query ≠ "") ∧
    (((decodedJob emptyConfig []).NodeFilter.isSome = true ↔
      getString emptyConfig.node_filter_query ≠ "")) :=
  ⟨(decode_refines_dedup twoCommandsConfig).1, by rfl,
    ((decode_refines_dedup twoCommandsConfig).2 twoCommandsJob (by rfl)).1,
    ((decode_refines_dedup twoCommandsConfig).2 twoCommandsJob (by rfl)).2,
    ((decode_refines_dedup emptyConfig).2 (decodedJob emptyConfig []) (by rfl)).2⟩

/-! ## Commands -/

theorem commandFromMap_ok_fields {m : BlockMap} {c : JobCommand}
    (h : commandFromMap m = .ok c) :
    (c.Description = cmdStrOf m "description" ∧
      c.ShellCommand = cmdStrOf m "shell_command" ∧
      c.Script = cmdStrOf m "inline_script" ∧
      c.ScriptFile = cmdStrOf m "script_file" ∧
      c.ScriptFileArgs = cmdStrOf m "script_file_args") ∧
    ((blocksOf m "job").length ≤ 1 ∧ (blocksOf m "step_plugin").length ≤ 1 ∧
      (blocksOf m "node_step_plugin").length ≤ 1) ∧
    c.Job = (blocksOf m "job").head?.map (fun b =>
      { Name := strOf b "name", GroupName := strOf b "group_name",
        RunForEachNode := boolOf b "run_for_each_node", Arguments := strOf b "args" }) ∧
    c.StepPlugin = (blocksOf m "step_plugin").head?.map (fun b =>
      { Type_ := strOf b "type", Config := copyConfig (strMapOf b "config") }) ∧
    c.NodeStepPlugin = (blocksOf m "node_step_plugin").head?.map (fun b =>
      { Type_ := strOf b "type", Config := copyConfig (strMapOf b "config") }) := by
  unfold commandFromMap at h
  rcases hj : blocksOf m "job" with _ | ⟨bj, _ | ⟨bj2, tj⟩⟩ <;>
    rcases hs : blocksOf m "step_plugin" with _ | ⟨bs, _ | ⟨bs2, ts⟩⟩ <;>
    rcases hn : blocksOf m "node_step_plugin" with _ | ⟨bn, _ | ⟨bn2, tn⟩⟩ <;>
    simp [hj, hs, hn] at h <;> subst h <;> simp

theorem commandsFromConfigs_forall₂ (ms : List BlockMap) (acc commands : List JobCommand)
    (h : commandsFromConfigs ms acc = .ok commands) :
    ∃ rest, commands = acc ++ rest ∧
      List.Forall₂ (fun m c => commandFromMap m = .ok c) ms rest := by
  induction ms generalizing acc with
  | nil =>
    simp only [commandsFromConfigs, Except.ok.injEq] at h
    exact ⟨[], by simp [h], List.Forall₂.nil⟩
  | cons m ms ih =>
    cases hc : commandFromMap m with
    | error e => simp [commandsFromConfigs, hc] at h
    | ok c =>
      simp only [commandsFromConfigs, hc] at h
      obtain ⟨rest, hrest, hall⟩ := ih _ h
      exact ⟨c :: rest, by simp [hrest], List.Forall₂.cons hc hall⟩

theorem mapSet_of_not_mem (acc : List (String × String)) (k v : String)
    (h : k ∉ acc.map Prod.fst) : mapSet acc k v = acc ++ [(k, v)] := by
  induction acc with
  | nil => rfl
  | cons kv acc ih =>
    obtain ⟨k', v'⟩ := kv
    simp only [List.map_cons, List.mem_cons, not_or] at h
    have hk : k' ≠ k := fun e => h.1 e.symm
    simp [mapSet, hk, ih h.2]

theorem foldl_mapSet_of_nodup (m acc : List (String × String))
    (h : ((acc ++ m).map Prod.fst).Nodup) :
    m.foldl (fun config kv => mapSet config kv.1 kv.2) acc = acc ++ m := by
  induction m generalizing acc with
  | nil => simp
  | cons kv m ih =>
    have hk : kv.1 ∉ acc.map Prod.fst := by
      simp only [List.map_append, List.map_cons] at h
      have := (List.nodup_append.mp h).2.2
      intro hmem
      exact this hmem (List.mem_cons_self _ _)
    simp only [List.foldl_cons]
    rw [mapSet_of_not_mem acc kv.1 kv.2 hk, ih]
    · simp
    · simpa using h

/-- On a configuration map in which no key occurs twice, the copy loop of the
decoder returns the map itself. -/
theorem copyConfig_of_nodup (m : List (String × String)) (h : (m.map Prod.fst).Nodup) :
    copyConfig m = m := by
  unfold copyConfig
  rw [foldl_mapSet_of_nodup m [] (by simpa using h)]
  simp

/-- C19: a job returned by the decoder always has a command sequence, also
when no command block is declared, with exactly one command per declared
block in declaration order. Each command copies `description`,
`shell_command`, `inline_script`, `script_file` and `script_file_args`, has a
job reference, a step plugin and a node-step plugin exactly when the
corresponding sub-list has length 1, and each plugin carries the type of its
block and, the declared config being a map (no key twice), a configuration
with the same keys and the same string values. -/
theorem decode_commands (d : ResourceData) (j : JobDetail)
    (hj : jobFromResourceData d = .ok j) :
    ∃ commandSequence, j.CommandSequence = some commandSequence ∧
      commandSequence.Commands.length = d.command.length ∧
      ∀ (i : Nat) (m : BlockMap), d.command[i]? = some m →
        ∃ c, commandSequence.Commands[i]? = some c ∧
          c.Description = cmdStrOf m "description" ∧
          c.ShellCommand = cmdStrOf m "shell_command" ∧
          c.Script = cmdStrOf m "inline_script" ∧
          c.ScriptFile = cmdStrOf m "script_file" ∧
          c.ScriptFileArgs = cmdStrOf m "script_file_args" ∧
          (c.Job.isSome = true ↔ (blocksOf m "job").length = 1) ∧
          (c.StepPlugin.isSome = true ↔ (blocksOf m "step_plugin").length = 1) ∧
          (c.NodeStepPlugin.isSome = true ↔ (blocksOf m "node_step_plugin").length = 1) ∧
          (∀ p, c.StepPlugin = some p →
            ∃ b, blocksOf m "step_plugin" = [b] ∧ p.Type_ = strOf b "type" ∧
              (((strMapOf b "config").map Prod.fst).Nodup →
                ∀ k, p.Config.lookup k = (strMapOf b "config").lookup k)) ∧
          (∀ p, c.NodeStepPlugin = some p →
            ∃ b, blocksOf m "node_step_plugin" = [b] ∧ p.Type_ = strOf b "type" ∧
              (((strMapOf b "config").map Prod.fst).Nodup →
                ∀ k, p.Config.lookup k = (strMapOf b "config").lookup k)) := by
  obtain ⟨commands, hc, -, rfl⟩ := jobFromResourceData_ok hj
  obtain ⟨rest, hrest, hall⟩ := commandsFromConfigs_forall₂ d.command [] commands hc
  simp only [List.nil_append] at hrest
  subst hrest
  refine ⟨_, rfl, hall.length_eq.symm, ?_⟩
  intro i m hm
  have hi : i < d.command.length := by
    rcases Nat.lt_or_ge i d.command.length with h | h
    · exact h
    · rw [List.getElem?_eq_none h] at hm
      cases hm
  have hi' : i < commands.length := by rw [← hall.length_eq]; exact hi
  have hget : d.command[i] = m := by
    rw [List.getElem?_eq_getElem hi] at hm
    exact Option.some.inj hm
  have hcm : commandFromMap m = .ok commands[i] := by
    have := List.forall₂_iff_get.mp hall
    have h2 := this.2 i hi hi'
    simpa [hget] using h2
  obtain ⟨⟨h1, h2, h3, h4, h5⟩, ⟨hlj, hls, hln⟩, hjob, hstep, hnode⟩ :=
    commandFromMap_ok_fields hcm
  refine ⟨commands[i], by simp [decodedJob, List.getElem?_eq_getElem hi'],
    h1, h2, h3, h4, h5, ?_, ?_, ?_, ?_, ?_⟩
  · rw [hjob]
    rcases hb : blocksOf m "job" with _ | ⟨b, _ | ⟨b2, t⟩⟩
    · simp
    · simp
    · rw [hb] at hlj; simp at hlj
  · rw [hstep]
    rcases hb : blocksOf m "step_plugin" with _ | ⟨b, _ | ⟨b2, t⟩⟩
    · simp
    · simp
    · rw [hb] at hls; simp at hls
  · rw [hnode]
    rcases hb : blocksOf m "node_step_plugin" with _ | ⟨b, _ | ⟨b2, t⟩⟩
    · simp
    · simp
    · rw [hb] at hln; simp at hln
  · intro p hp
    rw [hstep] at hp
    rcases hb : blocksOf m "step_plugin" with _ | ⟨b, _ | ⟨b2, t⟩⟩
    · rw [hb] at hp; simp at hp
    · rw [hb] at hp
      simp only [List.head?_cons, Option.map_some', Option.some.injEq] at hp
      subst hp
      exact ⟨b, rfl, rfl, fun hn k => by rw [copyConfig_of_nodup _ hn]⟩
    · rw [hb] at hls; simp at hls
  · intro p hp
    rw [hnode] at hp
    rcases hb : blocksOf m "node_step_plugin" with _ | ⟨b, _ | ⟨b2, t⟩⟩
    · rw [hb] at hp; simp at hp
    · rw [hb] at hp
      simp only [List.head?_cons, Option.map_some', Option.some.injEq] at hp
      subst hp
      exact ⟨b, rfl, rfl, fun hn k => by rw [copyConfig_of_nodup _ hn]⟩
    · rw [hb] at hln; simp at hln

theorem decode_commands_witness :
    jobFromResourceData twoCommandsConfig = .ok twoCommandsJob ∧
    twoCommandsConfig.command.length = 2 ∧
    (∃ commandSequence, twoCommandsJob.CommandSequence = some commandSequence ∧
      commandSequence.Commands.length = twoCommandsConfig.command.length) ∧
    jobFromResourceData emptyConfig = .ok (decodedJob emptyConfig []) ∧
    (∃ commandSequence, (decodedJob emptyConfig []).CommandSequence = some commandSequence ∧
      commandSequence.Commands.length = emptyConfig.command.length) :=
  ⟨by rfl, by rfl,
    (decode_commands twoCommandsConfig twoCommandsJob (by rfl)).imp
      (fun _ h => ⟨h.1, h.2.1⟩),
    by rfl,
    (decode_commands emptyConfig (decodedJob emptyConfig []) (by rfl)).imp
      (fun _ h => ⟨h.1, h.2.1⟩)⟩

/-! ## The continue-on-error flag -/

/-- C20: in every job returned by the decoder the continue-on-error flag of
the command sequence equals that of the dispatch policy, both being the
`continue_on_error` field of the configuration; and the encoder does not read
the flag of the command sequence: two jobs that differ only in it leave the
same configuration state. -/
theorem continue_on_error_single_source :
    (∀ (d : ResourceData) (j : JobDetail), jobFromResourceData d = .ok j →
      ∃ commandSequence dispatch,
        j.CommandSequence = some commandSequence ∧ j.Dispatch = some dispatch ∧
        commandSequence.ContinueOnError = dispatch.ContinueOnError ∧
        dispatch.ContinueOnError = getBool d.continue_on_error) ∧
    (∀ (job : JobDetail) (commandSequence : JobCommandSequence) (flag : Bool)
        (d : ResourceData),
      job.CommandSequence = some commandSequence →
      jobToResourceData
          { job with
            CommandSequence := some { commandSequence with ContinueOnError := flag } } d =
        jobToResourceData job d) := by
  constructor
  · intro d j hj
    obtain ⟨commands, -, -, rfl⟩ := jobFromResourceData_ok hj
    exact ⟨_, _, rfl, rfl, rfl, rfl⟩
  · intro job commandSequence flag d h
    simp only [jobToResourceData_eq]
    simp [encodedData, h]

theorem continue_on_error_single_source_witness :
    (∃ commandSequence dispatch,
      twoCommandsJob.CommandSequence = some commandSequence ∧
      twoCommandsJob.Dispatch = some dispatch ∧
      commandSequence.ContinueOnError = dispatch.ContinueOnError ∧
      dispatch.ContinueOnError = getBool twoCommandsConfig.continue_on_error) ∧
    jobToResourceData
        { fetchedJob with
          CommandSequence := some { fetchedSequence with ContinueOnError := true } }
        priorConfig =
      jobToResourceData fetchedJob priorConfig :=
  ⟨continue_on_error_single_source.1 twoCommandsConfig twoCommandsJob (by rfl),
    continue_on_error_single_source.2 fetchedJob fetchedSequence true priorConfig rfl⟩

end Rundeck
